import Mathlib

/-! # The EFA domain lifecycle (`prov/efa/src/efa_domain.c`)

A shallow embedding of `efa_domain_close`, `efa_open_device_by_name` and
`efa_domain_open`, followed by the properties proved about them.

Conventions of the embedding.

* A C string is the list of its bytes before the terminating NUL
  (`CStr`); `WfStr` says that no listed byte is NUL.
* `size_t` is 64 bits wide and `int` 32 bits wide; the conversions between
  them are written out with explicit remainders.
* Calls to functions defined outside the file (the util layer, the device
  layer, libc allocation) are answered by an environment record and are
  logged, in program order, in the `trace` of the process state.
* A dereference of a NULL pointer is undefined behaviour; a function in which
  it can happen returns `none` there.
-/

namespace Efa

/-! ## C strings and machine integers -/

/-- The bytes of a C string before its terminating NUL. -/
abbrev CStr := List Nat

/-- Representation invariant of `CStr`: every listed byte is a non-NUL byte. -/
def WfStr (s : CStr) : Prop := ∀ b ∈ s, 0 < b ∧ b < 256

instance (s : CStr) : Decidable (WfStr s) := by
  unfold WfStr; infer_instance

/-- The libc `strlen`. -/
def strlen (s : CStr) : Nat := s.length

/-- The libc `strncmp (s1, s2, n)`: compares at most `n` bytes, stops after a
NUL, and returns the difference of the first pair of bytes that differ (the
end of a list is the NUL byte). The C standard fixes the sign of a non-zero
result; the difference of the two bytes is the value the usual
implementations return. -/
def strncmp : CStr → CStr → Nat → Int
  | _, _, 0 => 0
  | [], [], _ + 1 => 0
  | [], b :: _, _ + 1 => 0 - (b : Int)
  | a :: _, [], _ + 1 => (a : Int)
  | a :: s1, b :: s2, n + 1 => if a = b then strncmp s1 s2 n else (a : Int) - (b : Int)

/-- The value of a `size_t` expression: reduction modulo `2 ^ 64`. -/
def to_size_t (x : Int) : Nat := (x % 2 ^ 64).toNat

/-- Conversion of a `size_t` value to `int`: reduction modulo `2 ^ 32` into the
range `[-2 ^ 31, 2 ^ 31)`. -/
def to_int (x : Nat) : Int :=
  if x % 2 ^ 32 < 2 ^ 31 then ((x % 2 ^ 32 : Nat) : Int) else ((x % 2 ^ 32 : Nat) : Int) - 2 ^ 32

/-- The assignment `name_len = strlen(name) - strlen(suffix)`: a `size_t`
subtraction stored in an `int`. -/
def name_len (name suffix : CStr) : Int :=
  to_int (to_size_t ((strlen name : Int) - (strlen suffix : Int)))

/-- The bytes of an ASCII literal, for writing device and domain names. -/
def cstr (s : String) : CStr := s.toList.map Char.toNat

/-! ## Constants declared outside the file -/

/-- Modelled from the spec: the InvalidArgument code `FI_EINVAL` of
`rdma/fi_errno.h`, a header that is not part of the file; it is the positive
`errno` number `EINVAL`. -/
def FI_EINVAL : Int := 22

/-- Modelled from the spec: the NoDevice code `FI_ENODEV` of
`rdma/fi_errno.h`, a header that is not part of the file; it is the positive
`errno` number `ENODEV`. -/
def FI_ENODEV : Int := 19

/-- Modelled from the spec: the OutOfMemory code `FI_ENOMEM` of
`rdma/fi_errno.h`, a header that is not part of the file; it is the positive
`errno` number `ENOMEM`. -/
def FI_ENOMEM : Int := 12

/-- The constants of `efa.h` that the functions read and the file does not
define: the two mode suffixes (`efa_rdm_domain.suffix`,
`efa_dgrm_domain.suffix`), the partition factor `EFA_DEF_NUM_MR_CACHE` (a
non-zero macro) and `sizeof(struct efa_mem_desc)`. -/
structure Config where
  rdm_suffix : CStr
  dgrm_suffix : CStr
  EFA_DEF_NUM_MR_CACHE : Nat
  sizeof_efa_mem_desc : Nat
  factor_pos : 0 < EFA_DEF_NUM_MR_CACHE

/-! ## Data model -/

/-- The part of `struct efa_context` the file reads: the name of the device
(`ibv_ctx.device->name`) and `max_mr_size`. -/
structure efa_context where
  name : CStr
  max_mr_size : Nat
  deriving DecidableEq

/-- A protection context, identified by its number `pdn`. -/
structure efa_pd where
  pdn : Nat
  deriving DecidableEq

/-- The part of `struct fi_info` the file reads: `domain_attr->name` (possibly
NULL), `domain_attr->mr_cnt` and the value of `EFA_EP_TYPE_IS_RDM(info)`. -/
structure fi_info where
  name : Option CStr
  mr_cnt : Nat
  is_rdm : Bool
  deriving DecidableEq

/-- The table `efa_fid_ops` (close, no bind, no control, no ops_open). -/
inductive FidOpsTable where
  | efa_fid_ops
  deriving DecidableEq

/-- The table `efa_domain_ops` (av_open, cq_open, endpoint; the rest are the
`fi_no_*` stubs). -/
inductive DomainOpsTable where
  | efa_domain_ops
  deriving DecidableEq

/-- The two memory-registration tables a domain can be bound to. -/
inductive MrOpsTable where
  | efa_domain_mr_cache_ops
  | efa_domain_mr_ops
  deriving DecidableEq

/-- The callbacks stored in a cache instance. -/
inductive CacheCallback where
  | efa_mr_cache_entry_reg
  | efa_mr_cache_entry_dereg
  deriving DecidableEq

/-- The fields of `struct ofi_mr_cache` that `efa_domain_open` fills in. -/
structure ofi_mr_cache where
  entry_data_size : Nat
  add_region : Option CacheCallback
  delete_region : Option CacheCallback
  deriving DecidableEq

/-- The object `struct efa_domain`. `addr` is the address `calloc` returned,
`util_domain` tells whether `ofi_domain_init` has set up the base state, and
each pointer field is `none` while it is NULL. -/
structure efa_domain where
  addr : Nat
  util_domain : Bool
  fid_ops : Option FidOpsTable
  ops : Option DomainOpsTable
  mr : Option MrOpsTable
  fab : Option Nat
  info : Option fi_info
  rdm : Bool
  ctx : Option efa_context
  pd : Option efa_pd
  cache : ofi_mr_cache
  deriving DecidableEq

/-- The block `calloc(1, sizeof(*domain))` returns at address `a`. -/
def efa_domain.zeroed (a : Nat) : efa_domain :=
  { addr := a, util_domain := false, fid_ops := none, ops := none, mr := none,
    fab := none, info := none, rdm := false, ctx := none, pd := none,
    cache := { entry_data_size := 0, add_region := none, delete_region := none } }

/-- What the functions do to the outside, in program order: the calls to
functions defined elsewhere (with the domain address they concern and their
result) and the two stores callers can observe (`*domain_fid = ...` and
`domain->pd = NULL`). -/
inductive Event where
  | efa_get_efa_info (found : Bool)
  | ofi_check_domain_attr (ret : Int)
  | calloc (block : Option Nat)
  | ofi_domain_init (d : Nat) (ret : Int)
  | fi_dupinfo (d : Nat) (ok : Bool)
  | efa_device_get_context_list (ok : Bool)
  | efa_device_free_context_list
  | efa_cmd_alloc_pd (d : Nat) (ok : Bool)
  | store_domain_fid (d : Nat)
  | ofi_mr_cache_init (d : Nat) (ret : Int)
  | ofi_mr_cache_cleanup (d : Nat)
  | efa_cmd_dealloc_pd (d : Nat) (ret : Int)
  | store_pd_null (d : Nat)
  | ofi_domain_close (d : Nat)
  | fi_freeinfo (d : Nat)
  | free (d : Nat)
  deriving DecidableEq

/-- The global `cache_params`. -/
structure ofi_mr_cache_params where
  max_cnt : Nat
  max_size : Nat
  merge_regions : Int
  deriving DecidableEq

/-- The process-wide state: the globals the file reads and writes, and the
trace of events so far. -/
structure Proc where
  efa_mr_cache_enable : Int
  efa_mr_max_cached_count : Nat
  efa_mr_max_cached_size : Nat
  efa_mr_cache_merge_regions : Int
  cache_params : ofi_mr_cache_params
  trace : List Event
  deriving DecidableEq

/-- Append one event to the trace. -/
def Proc.log (p : Proc) (e : Event) : Proc := { p with trace := p.trace ++ [e] }

/-- The answers of the outside world to one call of `efa_domain_open`: the
results of the functions it calls and the value of `errno` it reads after
`efa_device_get_context_list` and after `efa_cmd_alloc_pd`. `ctx_list` is the
array `efa_device_get_context_list` returns, with its `num_ctx` entries, or
`none` for NULL; `calloc` is the address of the zeroed block or `none`. -/
structure OpenEnv where
  efa_get_efa_info : Bool
  ofi_check_domain_attr : Int
  calloc : Option Nat
  ofi_domain_init : Int
  fi_dupinfo : Bool
  ctx_list : Option (List efa_context)
  errno_ctx_list : Int
  efa_cmd_alloc_pd : Option efa_pd
  errno_alloc_pd : Int
  ofi_mr_cache_init : Int
  deriving DecidableEq

/-- The answers of the outside world to one call of `efa_domain_close`. -/
structure CloseEnv where
  efa_cmd_dealloc_pd : Int
  ofi_domain_close : Int
  deriving DecidableEq

/-! ## `efa_domain_close` -/

/-- The result of `efa_domain_close`: the return value, the domain object after
the call (`none` once it has been freed) and the process state. -/
structure CloseResult where
  ret : Int
  domain : Option efa_domain
  proc : Proc
  deriving DecidableEq

/-- The function `efa_domain_close`. -/
def efa_domain_close (env : CloseEnv) (domain : efa_domain) (p : Proc) : CloseResult :=
  -- if (efa_mr_cache_enable) ofi_mr_cache_cleanup(&domain->cache);
  let p := if p.efa_mr_cache_enable ≠ 0 then p.log (.ofi_mr_cache_cleanup domain.addr) else p
  -- if (domain->pd) { ret = efa_cmd_dealloc_pd(domain->pd); if (ret) return ret; domain->pd = NULL; }
  let after_pd : Except (Int × Proc) (efa_domain × Proc) :=
    match domain.pd with
    | some _ =>
      let p := p.log (.efa_cmd_dealloc_pd domain.addr env.efa_cmd_dealloc_pd)
      if env.efa_cmd_dealloc_pd ≠ 0 then .error (env.efa_cmd_dealloc_pd, p)
      else .ok ({ domain with pd := none }, p.log (.store_pd_null domain.addr))
    | none => .ok (domain, p)
  match after_pd with
  | .error (ret, p) => { ret := ret, domain := some domain, proc := p }
  | .ok (domain, p) =>
    -- ret = ofi_domain_close(&domain->util_domain); if (ret) return ret;
    let p := p.log (.ofi_domain_close domain.addr)
    if env.ofi_domain_close ≠ 0 then
      { ret := env.ofi_domain_close, domain := some domain, proc := p }
    else
      -- fi_freeinfo(domain->info); free(domain); return 0;
      let p := p.log (.fi_freeinfo domain.addr)
      let p := p.log (.free domain.addr)
      { ret := 0, domain := none, proc := p }

/-! ## `efa_open_device_by_name` -/

/-- The result of `efa_open_device_by_name`. -/
structure DevResult where
  ret : Int
  domain : efa_domain
  proc : Proc
  deriving DecidableEq

/-- The loop `for (i = 0; i < num_ctx; i++)` over the entries still to visit:
`ret` is overwritten by each `strncmp`, and the first entry for which it is
zero is the one stored in `domain->ctx` (the `break`). Run to the end without
a match, it returns the last value of `ret` and no entry. -/
def ctx_loop (name : CStr) (n : Nat) : List efa_context → Int → Int × Option efa_context
  | [], ret => (ret, none)
  | c :: rest, _ =>
    let ret := strncmp name c.name n
    if ret = 0 then (ret, some c) else ctx_loop name n rest ret

/-- The suffix of the domain mode: `efa_rdm_domain.suffix` or
`efa_dgrm_domain.suffix`. -/
def mode_suffix (cfg : Config) (rdm : Bool) : CStr :=
  if rdm then cfg.rdm_suffix else cfg.dgrm_suffix

/-- The function `efa_open_device_by_name`. -/
def efa_open_device_by_name (cfg : Config) (env : OpenEnv) (domain : efa_domain)
    (name : Option CStr) (p : Proc) : DevResult :=
  match name with
  -- if (!name) return -FI_EINVAL;
  | none => { ret := -FI_EINVAL, domain := domain, proc := p }
  | some name =>
    -- ctx_list = efa_device_get_context_list(&num_ctx); if (!ctx_list) return -errno;
    let p := p.log (.efa_device_get_context_list env.ctx_list.isSome)
    match env.ctx_list with
    | none => { ret := -env.errno_ctx_list, domain := domain, proc := p }
    | some ctx_list =>
      let len : Int :=
        if domain.rdm then name_len name cfg.rdm_suffix else name_len name cfg.dgrm_suffix
      -- the third argument of strncmp is a size_t
      let found := ctx_loop name (to_size_t len) ctx_list (-FI_ENODEV)
      let domain := match found.2 with
        | some c => { domain with ctx := some c }
        | none => domain
      -- efa_device_free_context_list(ctx_list); return ret;
      { ret := found.1, domain := domain, proc := p.log .efa_device_free_context_list }

/-! ## `efa_domain_open` -/

/-- The result of `efa_domain_open`: the return value, the domain object whose
handle was stored through the argument `domain_fid` (`none` when nothing was
stored through it; the object is shown with the values its fields have when
the function returns) and the process state. -/
structure OpenResult where
  ret : Int
  domain_fid : Option efa_domain
  proc : Proc
  deriving DecidableEq

/-- The label `err_free_domain`: `free(domain); return ret;`. -/
def err_free_domain (domain : efa_domain) (ret : Int) (p : Proc) : OpenResult :=
  { ret := ret, domain_fid := none, proc := p.log (.free domain.addr) }

/-- The label `err_close_domain`: `ofi_domain_close(&domain->util_domain);`,
then on to `err_free_domain`. -/
def err_close_domain (domain : efa_domain) (ret : Int) (p : Proc) : OpenResult :=
  err_free_domain domain ret (p.log (.ofi_domain_close domain.addr))

/-- The label `err_free_info`: `fi_freeinfo(domain->info);`, then on to
`err_close_domain`. -/
def err_free_info (domain : efa_domain) (ret : Int) (p : Proc) : OpenResult :=
  err_close_domain domain ret (p.log (.fi_freeinfo domain.addr))

/-- The last statements of `efa_domain_open`, reached when the cache is off or
its initialisation failed: bind `efa_domain_mr_ops`, clear
`efa_mr_cache_enable`, `return 0`. -/
def bind_uncached (domain : efa_domain) (p : Proc) : OpenResult :=
  { ret := 0, domain_fid := some { domain with mr := some .efa_domain_mr_ops },
    proc := { p with efa_mr_cache_enable := 0 } }

/-- Lines 177 to 201 of `efa_domain_open`, the statements that follow the store
through `domain_fid`: the memory-registration cache is set up when
`efa_mr_cache_enable` is set, and the registration table is bound. The result
is `none` when the NULL `domain->ctx` is dereferenced (line 182). -/
def efa_domain_open_mr_cache (cfg : Config) (env : OpenEnv) (info : fi_info)
    (domain : efa_domain) (p : Proc) : Option OpenResult :=
  if p.efa_mr_cache_enable ≠ 0 then
    -- if (!efa_mr_max_cached_count) efa_mr_max_cached_count = mr_cnt / EFA_DEF_NUM_MR_CACHE;
    let p :=
      if p.efa_mr_max_cached_count = 0 then
        { p with efa_mr_max_cached_count := info.mr_cnt / cfg.EFA_DEF_NUM_MR_CACHE }
      else p
    -- if (!efa_mr_max_cached_size) efa_mr_max_cached_size = domain->ctx->max_mr_size / EFA_DEF_NUM_MR_CACHE;
    let size : Option Nat :=
      if p.efa_mr_max_cached_size = 0 then
        domain.ctx.map (fun c => c.max_mr_size / cfg.EFA_DEF_NUM_MR_CACHE)
      else some p.efa_mr_max_cached_size
    match size with
    | none => none
    | some size =>
      let p := { p with efa_mr_max_cached_size := size }
      let p := { p with cache_params :=
        { max_cnt := p.efa_mr_max_cached_count, max_size := p.efa_mr_max_cached_size,
          merge_regions := p.efa_mr_cache_merge_regions } }
      let domain := { domain with cache :=
        { entry_data_size := cfg.sizeof_efa_mem_desc,
          add_region := some .efa_mr_cache_entry_reg,
          delete_region := some .efa_mr_cache_entry_dereg } }
      -- ret = ofi_mr_cache_init(...); if (!ret) { mr = &efa_domain_mr_cache_ops; return 0; }
      let p := p.log (.ofi_mr_cache_init domain.addr env.ofi_mr_cache_init)
      if env.ofi_mr_cache_init = 0 then
        some { ret := 0, domain_fid := some { domain with mr := some .efa_domain_mr_cache_ops },
               proc := p }
      else bind_uncached domain p
  else bind_uncached domain p

/-- The domain object once the protection context is allocated and the
tables and the fabric are set (lines 162 to 173). -/
def efa_domain.with_pd (domain : efa_domain) (pd : efa_pd) (fabric : Nat) : efa_domain :=
  { domain with pd := some pd, fid_ops := some .efa_fid_ops, ops := some .efa_domain_ops,
                fab := some fabric }

/-- The function `efa_domain_open`; its last part is `efa_domain_open_mr_cache`. -/
def efa_domain_open (cfg : Config) (env : OpenEnv) (fabric : Nat) (info : fi_info)
    (p : Proc) : Option OpenResult :=
  -- fi = efa_get_efa_info(info->domain_attr->name); if (!fi) return -FI_EINVAL;
  let p := p.log (.efa_get_efa_info env.efa_get_efa_info)
  if env.efa_get_efa_info = false then
    some { ret := -FI_EINVAL, domain_fid := none, proc := p }
  else
  -- ret = ofi_check_domain_attr(...); if (ret) return ret;
  let p := p.log (.ofi_check_domain_attr env.ofi_check_domain_attr)
  if env.ofi_check_domain_attr ≠ 0 then
    some { ret := env.ofi_check_domain_attr, domain_fid := none, proc := p }
  else
  -- domain = calloc(1, sizeof(*domain)); if (!domain) return -FI_ENOMEM;
  let p := p.log (.calloc env.calloc)
  match env.calloc with
  | none => some { ret := -FI_ENOMEM, domain_fid := none, proc := p }
  | some a =>
    let domain := efa_domain.zeroed a
    -- ret = ofi_domain_init(...); if (ret) goto err_free_domain;
    let p := p.log (.ofi_domain_init a env.ofi_domain_init)
    if env.ofi_domain_init ≠ 0 then
      some (err_free_domain domain env.ofi_domain_init p)
    else
    -- domain->info = fi_dupinfo(info); if (!domain->info) { ret = -FI_ENOMEM; goto err_close_domain; }
    let p := p.log (.fi_dupinfo a env.fi_dupinfo)
    if env.fi_dupinfo = false then
      some (err_close_domain { domain with util_domain := true } (-FI_ENOMEM) p)
    else
    -- domain->rdm = EFA_EP_TYPE_IS_RDM(info);
    let domain := { domain with util_domain := true, info := some info, rdm := info.is_rdm }
    -- ret = efa_open_device_by_name(domain, info->domain_attr->name); if (ret) goto err_free_info;
    let dev := efa_open_device_by_name cfg env domain info.name p
    if dev.ret ≠ 0 then
      some (err_free_info dev.domain dev.ret dev.proc)
    else
    -- domain->pd = efa_cmd_alloc_pd(domain->ctx); if (!domain->pd) { ret = -errno; goto err_free_info; }
    let p := dev.proc.log (.efa_cmd_alloc_pd a env.efa_cmd_alloc_pd.isSome)
    match env.efa_cmd_alloc_pd with
    | none => some (err_free_info dev.domain (-env.errno_alloc_pd) p)
    | some pd =>
      -- fid.ops = &efa_fid_ops; ops = &efa_domain_ops; domain->fab = fabric;
      let domain := dev.domain.with_pd pd fabric
      -- *domain_fid = &domain->util_domain.domain_fid;
      let p := p.log (.store_domain_fid a)
      efa_domain_open_mr_cache cfg env info domain p

/-! ## Sequences of calls in one process -/

/-- One call made by the application: opening a domain, or closing a domain
object. -/
inductive Op where
  | domain_open (env : OpenEnv) (fabric : Nat) (info : fi_info)
  | domain_close (env : CloseEnv) (domain : efa_domain)

/-- What a call returned. -/
inductive OpResult where
  | opened (r : OpenResult)
  | closed (r : CloseResult)

/-- The process state a call leaves. -/
def OpResult.proc : OpResult → Proc
  | .opened r => r.proc
  | .closed r => r.proc

/-- Run one call; `none` when it has undefined behaviour. -/
def step (cfg : Config) (p : Proc) : Op → Option OpResult
  | .domain_open env fabric info => (efa_domain_open cfg env fabric info p).map .opened
  | .domain_close env domain => some (.closed (efa_domain_close env domain p))

/-- Run the calls one after the other from the state `p`: the results in
order and the final state, or `none` when one of the calls has undefined
behaviour. -/
def run (cfg : Config) : Proc → List Op → Option (List OpResult × Proc)
  | p, [] => some ([], p)
  | p, op :: ops =>
    match step cfg p op with
    | none => none
    | some r =>
      match run cfg r.proc ops with
      | none => none
      | some (rs, q) => some (r :: rs, q)

/-! ## Vocabulary of the properties -/

/-- The request and the device name agree on their first `k` bytes. -/
def AgreeOn (k : Nat) (name dev : CStr) : Prop := name.take k = dev.take k

instance (k : Nat) (name dev : CStr) : Decidable (AgreeOn k name dev) := by
  unfold AgreeOn; infer_instance


/-- The acquisition step of `efa_domain_open` at which a failure is injected. -/
inductive FailurePoint where
  | ofi_domain_init
  | fi_dupinfo
  | efa_open_device_by_name
  | efa_cmd_alloc_pd
  deriving DecidableEq

/-- The domain object as it is when `efa_open_device_by_name` is called:
zeroed, with the base state, the duplicated info and `rdm` set. -/
def domain_at_resolve (a : Nat) (info : fi_info) : efa_domain :=
  { efa_domain.zeroed a with util_domain := true, info := some info, rdm := info.is_rdm }

/-- The process state in which `efa_domain_open` calls
`efa_open_device_by_name`, when the five calls before it succeeded. -/
def proc_at_resolve (p : Proc) (a : Nat) : Proc :=
  ((((p.log (.efa_get_efa_info true)).log (.ofi_check_domain_attr 0)).log
    (.calloc (some a))).log (.ofi_domain_init a 0)).log (.fi_dupinfo a true)

/-- The step `f` is the first one whose failure `efa_domain_open` sees: every
acquisition step before `f` is taken as a success and `f` as a failure by the
code (`ofi_domain_init` returns a non-zero value, `fi_dupinfo` returns NULL,
`efa_open_device_by_name` returns a non-zero value, `efa_cmd_alloc_pd` returns
NULL). A device resolution that fails while `efa_open_device_by_name` returns 0
(NULL device list with `errno` at 0) is not covered. -/
def FailsAt (cfg : Config) (env : OpenEnv) (info : fi_info) (a : Nat) (p : Proc) :
    FailurePoint → Prop
  | .ofi_domain_init => env.ofi_domain_init ≠ 0
  | .fi_dupinfo => env.ofi_domain_init = 0 ∧ env.fi_dupinfo = false
  | .efa_open_device_by_name =>
    env.ofi_domain_init = 0 ∧ env.fi_dupinfo = true ∧
      (efa_open_device_by_name cfg env (domain_at_resolve a info) info.name p).ret ≠ 0
  | .efa_cmd_alloc_pd =>
    env.ofi_domain_init = 0 ∧ env.fi_dupinfo = true ∧
      (efa_open_device_by_name cfg env (domain_at_resolve a info) info.name p).ret = 0 ∧
      env.efa_cmd_alloc_pd = none

/-- The cleanup calls the claim lists for a failure at the step `f`. -/
def expected_cleanup (a : Nat) : FailurePoint → List Event
  | .ofi_domain_init => [.free a]
  | .fi_dupinfo => [.ofi_domain_close a, .free a]
  | .efa_open_device_by_name => [.fi_freeinfo a, .ofi_domain_close a, .free a]
  | .efa_cmd_alloc_pd => [.fi_freeinfo a, .ofi_domain_close a, .free a]

/-- The call that undoes an acquisition of `efa_domain_open` that succeeded:
`free` for `calloc`, `ofi_domain_close` for `ofi_domain_init`, `fi_freeinfo`
for `fi_dupinfo`. -/
def undo_of : Event → Option Event
  | .calloc (some a) => some (.free a)
  | .ofi_domain_init a ret => if ret = 0 then some (.ofi_domain_close a) else none
  | .fi_dupinfo a true => some (.fi_freeinfo a)
  | _ => none

/-- The event is one of the cleanup calls `free`, `ofi_domain_close`,
`fi_freeinfo`. -/
def is_undo : Event → Bool
  | .free _ => true
  | .ofi_domain_close _ => true
  | .fi_freeinfo _ => true
  | _ => false

/-- The event is a store through the argument `domain_fid`. -/
def is_store_domain_fid : Event → Bool
  | .store_domain_fid _ => true
  | _ => false

/-- The event is a call of `ofi_mr_cache_init`. -/
def is_mr_cache_init : Event → Bool
  | .ofi_mr_cache_init _ _ => true
  | _ => false

/-- The event belongs to the teardown that follows the deallocation of the
protection context in `efa_domain_close`: the store `domain->pd = NULL`,
`ofi_domain_close`, `fi_freeinfo` or `free`. -/
def is_late_teardown : Event → Bool
  | .store_pd_null _ => true
  | .ofi_domain_close _ => true
  | .fi_freeinfo _ => true
  | .free _ => true
  | _ => false

/-- The events of the first statement of `efa_domain_close`: the call of
`ofi_mr_cache_cleanup` when `efa_mr_cache_enable` is set, nothing otherwise. -/
def cache_cleanup_events (p : Proc) (domain : efa_domain) : List Event :=
  if p.efa_mr_cache_enable ≠ 0 then [.ofi_mr_cache_cleanup domain.addr] else []

/-- The process-wide cache configuration of `q` is that of `p`: the two
maxima, the merge flag and `cache_params` have the same values. -/
def SameCacheConfig (p q : Proc) : Prop :=
  q.efa_mr_max_cached_count = p.efa_mr_max_cached_count ∧
  q.efa_mr_max_cached_size = p.efa_mr_max_cached_size ∧
  q.efa_mr_cache_merge_regions = p.efa_mr_cache_merge_regions ∧
  q.cache_params = p.cache_params

/-! ## Example inputs -/

/-- The constants used in the examples: suffixes `-rdm` and `-dgrm`, partition
factor 10. -/
def cfg_ex : Config :=
  { rdm_suffix := cstr "-rdm", dgrm_suffix := cstr "-dgrm", EFA_DEF_NUM_MR_CACHE := 10,
    sizeof_efa_mem_desc := 64, factor_pos := by decide }

/-- A fresh process: cache enabled, configuration unset, empty trace. -/
def proc_ex : Proc :=
  { efa_mr_cache_enable := 1, efa_mr_max_cached_count := 0, efa_mr_max_cached_size := 0,
    efa_mr_cache_merge_regions := 1,
    cache_params := { max_cnt := 0, max_size := 0, merge_regions := 0 }, trace := [] }

/-- A device named `dev0`. -/
def dev0 : efa_context := { name := cstr "dev0", max_mr_size := 4096 }

/-- An environment in which every call succeeds and the only device is `dev0`;
the domain object is allocated at address 1. -/
def env_ex : OpenEnv :=
  { efa_get_efa_info := true, ofi_check_domain_attr := 0, calloc := some 1,
    ofi_domain_init := 0, fi_dupinfo := true, ctx_list := some [dev0], errno_ctx_list := 0,
    efa_cmd_alloc_pd := some { pdn := 7 }, errno_alloc_pd := 0, ofi_mr_cache_init := 0 }

/-- A request for the reliable-datagram domain `dev0-rdm` with `mr_cnt = 1000`. -/
def info_ex : fi_info := { name := some (cstr "dev0-rdm"), mr_cnt := 1000, is_rdm := true }

/-- A domain object that holds a protection context. -/
def domain_ex : efa_domain :=
  { (domain_at_resolve 1 info_ex).with_pd { pdn := 7 } 0 with
    ctx := some dev0, mr := some .efa_domain_mr_ops }

/-- The answers to a close in which `efa_cmd_dealloc_pd` fails with -16. -/
def close_env_fail : CloseEnv := { efa_cmd_dealloc_pd := -16, ofi_domain_close := 0 }

/-- The answers to a close in which every call succeeds. -/
def close_env_ok : CloseEnv := { efa_cmd_dealloc_pd := 0, ofi_domain_close := 0 }

/-- A device named `ab`, a name shorter than either suffix. -/
def dev_ab : efa_context := { name := cstr "ab", max_mr_size := 4096 }

/-- The environment `env_ex` in which `efa_cmd_alloc_pd` returns NULL and
leaves `errno` at 0. -/
def env_pd_null : OpenEnv := { env_ex with efa_cmd_alloc_pd := none, errno_alloc_pd := 0 }

/-- The environment `env_ex` in which `efa_device_get_context_list` returns
NULL and leaves `errno` at 0. -/
def env_list_null : OpenEnv := { env_ex with ctx_list := none, errno_ctx_list := 0 }

/-- The environment `env_ex` with the domain object at address 2 and a failing
`ofi_mr_cache_init`. -/
def env_cache_fail : OpenEnv := { env_ex with calloc := some 2, ofi_mr_cache_init := -12 }

/-- A request like `info_ex` with `mr_cnt = 5`, less than the partition factor. -/
def info_small : fi_info := { info_ex with mr_cnt := 5 }

/-- The result of opening domain A: `info_ex` in the fresh process `proc_ex`. -/
def open_A : OpenResult :=
  (efa_domain_open cfg_ex env_ex 0 info_ex proc_ex).getD
    { ret := 0, domain_fid := none, proc := proc_ex }

/-- The domain object A that `open_A` published. -/
def domain_A : efa_domain := open_A.domain_fid.getD (efa_domain.zeroed 0)

/-- The result of opening domain B in the fresh process `proc_ex` with a
failing `ofi_mr_cache_init`. -/
def open_B : OpenResult :=
  (efa_domain_open cfg_ex env_cache_fail 0 info_ex proc_ex).getD
    { ret := 0, domain_fid := none, proc := proc_ex }

/-- A later sequence of calls: an open with `mr_cnt = 5`, then the close of
domain A. -/
def ops_ex : List Op :=
  [.domain_open env_ex 0 info_small, .domain_close close_env_ok domain_A]

/-- The results and the final state of `ops_ex` run after `open_A`. -/
def later_A : List OpResult × Proc := (run cfg_ex open_A.proc ops_ex).getD ([], open_A.proc)

/-- The result of opening domain B after domain A, with a failing
`ofi_mr_cache_init`. -/
def open_B_after_A : OpenResult :=
  (efa_domain_open cfg_ex env_cache_fail 0 info_ex open_A.proc).getD
    { ret := 0, domain_fid := none, proc := proc_ex }

/-- The process `proc_ex` with the cache switched off. -/
def proc_cache_off : Proc := { proc_ex with efa_mr_cache_enable := 0 }

/-! # Theorems -/

/-! ## The device resolver -/

theorem strncmp_eq_zero_iff (s1 s2 : CStr) (n : Nat) (h1 : WfStr s1) (h2 : WfStr s2) :
    strncmp s1 s2 n = 0 ↔ AgreeOn n s1 s2 := by
  unfold AgreeOn
  induction n generalizing s1 s2 with
  | zero => simp [strncmp]
  | succ n ih =>
    cases s1 with
    | nil =>
      cases s2 with
      | nil => simp [strncmp]
      | cons b s2 =>
        have hb := (h2 b (by simp)).1
        simp [strncmp]; omega
    | cons a s1 =>
      cases s2 with
      | nil =>
        have ha := (h1 a (by simp)).1
        simp [strncmp]; omega
      | cons b s2 =>
        have h1t : WfStr s1 := fun x hx => h1 x (by simp [hx])
        have h2t : WfStr s2 := fun x hx => h2 x (by simp [hx])
        by_cases hab : a = b
        · subst hab
          simp [strncmp, ih s1 s2 h1t h2t]
        · have : (a : Int) - (b : Int) ≠ 0 := by omega
          simp [strncmp, hab, this]

theorem name_len_of_le (name suffix : CStr) (hle : strlen suffix ≤ strlen name)
    (hint : strlen name < 2 ^ 31) :
    to_size_t (name_len name suffix) = strlen name - strlen suffix := by
  unfold name_len to_size_t to_int
  norm_num at hint ⊢
  split <;> omega

theorem ctx_loop_no_match (name : CStr) (n : Nat) (l : List efa_context) (ret : Int)
    (h : ∀ c ∈ l, strncmp name c.name n ≠ 0) :
    (ctx_loop name n l ret).2 = none ∧ ((ctx_loop name n l ret).1 = 0 → ret = 0 ∧ l = []) := by
  induction l generalizing ret with
  | nil => simp [ctx_loop]
  | cons c rest ih =>
    have hc := h c (by simp)
    have hr := ih (strncmp name c.name n) (fun x hx => h x (by simp [hx]))
    simp only [ctx_loop, hc, if_false]
    refine ⟨hr.1, fun h0 => ?_⟩
    exact absurd (hr.2 h0).1 hc

theorem ctx_loop_first_match (name : CStr) (n : Nat) (pre post : List efa_context)
    (c : efa_context) (ret : Int) (hpre : ∀ x ∈ pre, strncmp name x.name n ≠ 0)
    (hc : strncmp name c.name n = 0) :
    ctx_loop name n (pre ++ c :: post) ret = (0, some c) := by
  induction pre generalizing ret with
  | nil => simp [ctx_loop, hc]
  | cons x pre ih =>
    have hx := hpre x (by simp)
    simp only [List.cons_append, ctx_loop, hx, if_false]
    exact ih _ (fun y hy => hpre y (by simp [hy]))

theorem exists_first (P : efa_context → Prop) (l : List efa_context) (h : ∃ c ∈ l, P c) :
    ∃ pre c post, l = pre ++ c :: post ∧ P c ∧ ∀ x ∈ pre, ¬ P x := by
  classical
  induction l with
  | nil => simp at h
  | cons a rest ih =>
    by_cases ha : P a
    · exact ⟨[], a, rest, by simp, ha, by simp⟩
    · obtain ⟨c, hc, hp⟩ := h
      have hc2 : c ∈ rest := by
        rcases List.mem_cons.mp hc with rfl | h'
        · exact absurd hp ha
        · exact h'
      obtain ⟨pre, c0, post, hl, hp0, hpre⟩ := ih ⟨c, hc2, hp⟩
      refine ⟨a :: pre, c0, post, by simp [hl], hp0, ?_⟩
      intro x hx
      rcases List.mem_cons.mp hx with rfl | h'
      · exact ha
      · exact hpre x h'

/-- C3: for a request at least as long as the suffix of the domain mode and a
device list in which some device name agrees with the request on its first
`name_len` bytes (`name_len` = length of the request minus length of the
suffix), `efa_open_device_by_name` returns 0, stores in `domain->ctx` the
first such device of the list (no earlier entry agrees), and its last call is
`efa_device_free_context_list`. The strings are C strings (no NUL inside) and
the request is shorter than `2 ^ 31` bytes, so that `name_len` fits an `int`. -/
theorem efa_open_device_by_name_first_match (cfg : Config) (env : OpenEnv)
    (domain : efa_domain) (name : CStr) (l : List efa_context) (p : Proc)
    (hlist : env.ctx_list = some l)
    (hname : WfStr name) (hdevs : ∀ c ∈ l, WfStr c.name)
    (hlen : strlen (mode_suffix cfg domain.rdm) ≤ strlen name)
    (hint : strlen name < 2 ^ 31)
    (hex : ∃ c ∈ l, AgreeOn (strlen name - strlen (mode_suffix cfg domain.rdm)) name c.name) :
    ∃ pre c post, l = pre ++ c :: post ∧
      AgreeOn (strlen name - strlen (mode_suffix cfg domain.rdm)) name c.name ∧
      (∀ x ∈ pre, ¬ AgreeOn (strlen name - strlen (mode_suffix cfg domain.rdm)) name x.name) ∧
      (efa_open_device_by_name cfg env domain (some name) p).ret = 0 ∧
      (efa_open_device_by_name cfg env domain (some name) p).domain
        = { domain with ctx := some c } ∧
      (efa_open_device_by_name cfg env domain (some name) p).proc
        = (p.log (.efa_device_get_context_list true)).log .efa_device_free_context_list := by
  obtain ⟨pre, c, post, hl, hc, hpre⟩ := exists_first _ l hex
  refine ⟨pre, c, post, hl, hc, hpre, ?_⟩
  have hn : to_size_t (if domain.rdm = true then name_len name cfg.rdm_suffix
      else name_len name cfg.dgrm_suffix)
      = strlen name - strlen (mode_suffix cfg domain.rdm) := by
    unfold mode_suffix at hlen ⊢
    split
    · next h => rw [if_pos h] at hlen; exact name_len_of_le _ _ hlen hint
    · next h => rw [if_neg h] at hlen; exact name_len_of_le _ _ hlen hint
  have hloop := ctx_loop_first_match name (strlen name - strlen (mode_suffix cfg domain.rdm))
    pre post c (-FI_ENODEV)
    (fun x hx => by
      have hw : WfStr x.name := hdevs x (by simp [hl, hx])
      rw [Ne, strncmp_eq_zero_iff _ _ _ hname hw]; exact hpre x hx)
    (by
      have hw : WfStr c.name := hdevs c (by simp [hl])
      rw [strncmp_eq_zero_iff _ _ _ hname hw]; exact hc)
  simp only [efa_open_device_by_name, hlist, hn, hl, hloop, Option.isSome_some]
  simp

/-! ## Rollback in `efa_domain_open` -/

theorem efa_open_device_by_name_proc (cfg : Config) (env : OpenEnv) (domain : efa_domain)
    (name : Option CStr) (p : Proc) :
    ∃ evs, (efa_open_device_by_name cfg env domain name p).proc
        = { p with trace := p.trace ++ evs } ∧
      ∀ e ∈ evs, e = .efa_device_get_context_list env.ctx_list.isSome ∨
        e = .efa_device_free_context_list := by
  cases name with
  | none => exact ⟨[], by simp [efa_open_device_by_name], by simp⟩
  | some name =>
    cases h : env.ctx_list with
    | none =>
      exact ⟨[.efa_device_get_context_list false],
        by simp [efa_open_device_by_name, h, Proc.log], by simp⟩
    | some l =>
      exact ⟨[.efa_device_get_context_list true, .efa_device_free_context_list],
        by simp [efa_open_device_by_name, h, Proc.log], by simp⟩

theorem efa_open_device_by_name_ret_indep (cfg : Config) (env : OpenEnv) (d1 d2 : efa_domain)
    (name : Option CStr) (p q : Proc) (h : d1.rdm = d2.rdm) :
    (efa_open_device_by_name cfg env d1 name p).ret
      = (efa_open_device_by_name cfg env d2 name q).ret := by
  cases name with
  | none => simp [efa_open_device_by_name]
  | some name =>
    cases hl : env.ctx_list with
    | none => simp [efa_open_device_by_name, hl]
    | some l => simp [efa_open_device_by_name, hl, h]

theorem efa_open_device_by_name_addr (cfg : Config) (env : OpenEnv) (domain : efa_domain)
    (name : Option CStr) (p : Proc) :
    (efa_open_device_by_name cfg env domain name p).domain.addr = domain.addr := by
  cases name with
  | none => simp [efa_open_device_by_name]
  | some name =>
    cases hl : env.ctx_list with
    | none => simp [efa_open_device_by_name, hl]
    | some l =>
      simp only [efa_open_device_by_name, hl]
      split <;> rfl

theorem open_fail_init (cfg : Config) (env : OpenEnv) (fabric : Nat) (info : fi_info)
    (p : Proc) (a : Nat)
    (hinfo : env.efa_get_efa_info = true) (hattr : env.ofi_check_domain_attr = 0)
    (hcalloc : env.calloc = some a) (h : env.ofi_domain_init ≠ 0) :
    efa_domain_open cfg env fabric info p = some
      { ret := env.ofi_domain_init, domain_fid := none,
        proc := { p with trace := p.trace ++ [.efa_get_efa_info true, .ofi_check_domain_attr 0,
          .calloc (some a), .ofi_domain_init a env.ofi_domain_init] ++ [.free a] } } := by
  simp [efa_domain_open, hinfo, hattr, hcalloc, h, err_free_domain, Proc.log, efa_domain.zeroed]

theorem open_fail_dupinfo (cfg : Config) (env : OpenEnv) (fabric : Nat) (info : fi_info)
    (p : Proc) (a : Nat)
    (hinfo : env.efa_get_efa_info = true) (hattr : env.ofi_check_domain_attr = 0)
    (hcalloc : env.calloc = some a) (h : env.ofi_domain_init = 0) (h2 : env.fi_dupinfo = false) :
    efa_domain_open cfg env fabric info p = some
      { ret := -FI_ENOMEM, domain_fid := none,
        proc := { p with trace := p.trace ++ [.efa_get_efa_info true, .ofi_check_domain_attr 0,
          .calloc (some a), .ofi_domain_init a 0, .fi_dupinfo a false]
          ++ [.ofi_domain_close a, .free a] } } := by
  simp [efa_domain_open, hinfo, hattr, hcalloc, h, h2, err_free_domain, err_close_domain,
    Proc.log, efa_domain.zeroed]

theorem efa_domain_open_from_resolve (cfg : Config) (env : OpenEnv) (fabric : Nat)
    (info : fi_info) (p : Proc) (a : Nat)
    (hinfo : env.efa_get_efa_info = true) (hattr : env.ofi_check_domain_attr = 0)
    (hcalloc : env.calloc = some a) (h : env.ofi_domain_init = 0) (h2 : env.fi_dupinfo = true) :
    efa_domain_open cfg env fabric info p =
      if (efa_open_device_by_name cfg env (domain_at_resolve a info) info.name
          (proc_at_resolve p a)).ret ≠ 0 then
        some (err_free_info
          (efa_open_device_by_name cfg env (domain_at_resolve a info) info.name
            (proc_at_resolve p a)).domain
          (efa_open_device_by_name cfg env (domain_at_resolve a info) info.name
            (proc_at_resolve p a)).ret
          (efa_open_device_by_name cfg env (domain_at_resolve a info) info.name
            (proc_at_resolve p a)).proc)
      else
        match env.efa_cmd_alloc_pd with
        | none => some (err_free_info
            (efa_open_device_by_name cfg env (domain_at_resolve a info) info.name
              (proc_at_resolve p a)).domain
            (-env.errno_alloc_pd)
            ((efa_open_device_by_name cfg env (domain_at_resolve a info) info.name
              (proc_at_resolve p a)).proc.log (.efa_cmd_alloc_pd a false)))
        | some pd =>
          efa_domain_open_mr_cache cfg env info
            ((efa_open_device_by_name cfg env (domain_at_resolve a info) info.name
              (proc_at_resolve p a)).domain.with_pd pd fabric)
            (((efa_open_device_by_name cfg env (domain_at_resolve a info) info.name
              (proc_at_resolve p a)).proc.log (.efa_cmd_alloc_pd a true)).log
                (.store_domain_fid a)) := by
  unfold efa_domain_open
  simp only [hinfo, hattr, hcalloc, h, h2]
  cases env.efa_cmd_alloc_pd <;> rfl

theorem err_free_info_eq (domain : efa_domain) (ret : Int) (p : Proc) :
    err_free_info domain ret p =
      OpenResult.mk ret none { p with trace := p.trace ++
        [Event.fi_freeinfo domain.addr, Event.ofi_domain_close domain.addr,
          Event.free domain.addr] } := by
  simp [err_free_info, err_close_domain, err_free_domain, Proc.log]

theorem proc_at_resolve_eq (p : Proc) (a : Nat) :
    proc_at_resolve p a = { p with trace := p.trace ++ [.efa_get_efa_info true,
      .ofi_check_domain_attr 0, .calloc (some a), .ofi_domain_init a 0, .fi_dupinfo a true] } := by
  simp [proc_at_resolve, Proc.log]

theorem acq_no_cleanup (env : OpenEnv) (a : Nat) (evs : List Event)
    (hevs : ∀ e ∈ evs, e = .efa_device_get_context_list env.ctx_list.isSome ∨
      e = .efa_device_free_context_list ∨ e = .efa_cmd_alloc_pd a false) :
    ∀ e ∈ [Event.efa_get_efa_info true, .ofi_check_domain_attr 0, .calloc (some a),
      .ofi_domain_init a 0, .fi_dupinfo a true] ++ evs,
      is_undo e = false ∧ is_store_domain_fid e = false := by
  intro e he
  simp only [List.mem_append, List.mem_cons, List.mem_singleton, List.not_mem_nil,
    or_false] at he
  rcases he with (rfl | rfl | rfl | rfl | rfl) | he
  all_goals first
    | exact ⟨rfl, rfl⟩
    | (rcases hevs e he with rfl | rfl | rfl <;> exact ⟨rfl, rfl⟩)

theorem filterMap_undo_nil (env : OpenEnv) (a : Nat) (evs : List Event)
    (hevs : ∀ e ∈ evs, e = .efa_device_get_context_list env.ctx_list.isSome ∨
      e = .efa_device_free_context_list ∨ e = .efa_cmd_alloc_pd a false) :
    evs.filterMap undo_of = [] := by
  rw [List.filterMap_eq_nil_iff]
  intro e he
  rcases hevs e he with rfl | rfl | rfl <;> rfl

theorem count_free_nil (env : OpenEnv) (a : Nat) (evs : List Event)
    (hevs : ∀ e ∈ evs, e = .efa_device_get_context_list env.ctx_list.isSome ∨
      e = .efa_device_free_context_list ∨ e = .efa_cmd_alloc_pd a false) :
    evs.count (.free a) = 0 := by
  rw [List.count_eq_zero]
  intro hmem
  rcases hevs _ hmem with h | h | h <;> cases h

theorem acq_undo_reverse (env : OpenEnv) (a : Nat) (evs : List Event)
    (hevs : ∀ e ∈ evs, e = .efa_device_get_context_list env.ctx_list.isSome ∨
      e = .efa_device_free_context_list ∨ e = .efa_cmd_alloc_pd a false) :
    [Event.fi_freeinfo a, .ofi_domain_close a, .free a] =
      (([Event.efa_get_efa_info true, .ofi_check_domain_attr 0, .calloc (some a),
      .ofi_domain_init a 0, .fi_dupinfo a true] ++ evs).filterMap undo_of).reverse := by
  rw [List.filterMap_append, filterMap_undo_nil env a evs hevs]
  simp [undo_of]

theorem acq_free_once (env : OpenEnv) (a : Nat) (evs : List Event)
    (hevs : ∀ e ∈ evs, e = .efa_device_get_context_list env.ctx_list.isSome ∨
      e = .efa_device_free_context_list ∨ e = .efa_cmd_alloc_pd a false) :
    (([Event.efa_get_efa_info true, .ofi_check_domain_attr 0, .calloc (some a),
      .ofi_domain_init a 0, .fi_dupinfo a true] ++ evs) ++
      [Event.fi_freeinfo a, .ofi_domain_close a, .free a]).count (.free a) = 1 := by
  rw [List.count_append, List.count_append, count_free_nil env a evs hevs]
  simp

theorem resolver_events_weaken (env : OpenEnv) (a : Nat) (evs : List Event)
    (hevs : ∀ e ∈ evs, e = .efa_device_get_context_list env.ctx_list.isSome ∨
      e = .efa_device_free_context_list) :
    ∀ e ∈ evs, e = .efa_device_get_context_list env.ctx_list.isSome ∨
      e = .efa_device_free_context_list ∨ e = .efa_cmd_alloc_pd a false := by
  intro e he
  rcases hevs e he with h | h
  · exact Or.inl h
  · exact Or.inr (Or.inl h)

/-- Rollback for the failures `efa_domain_open` sees: when the steps before
the allocation succeed and the first failure the code sees is at
`ofi_domain_init`, at `fi_dupinfo`, at `efa_open_device_by_name` (non-zero
return value) or at `efa_cmd_alloc_pd` (NULL), `efa_domain_open` returns, and
the events it adds to the trace are the acquisition calls `acq` followed by
the cleanup calls `[free]`, `[ofi_domain_close, free]` or
`[fi_freeinfo, ofi_domain_close, free]`; no cleanup call and no store through
`domain_fid` occurs among `acq`, the cleanup calls are the undo calls of the
acquisitions that succeeded in reverse order, the domain object is freed once,
and nothing is published to the caller. -/
theorem efa_domain_open_rollback (cfg : Config) (env : OpenEnv) (fabric : Nat) (info : fi_info)
    (p : Proc) (a : Nat) (f : FailurePoint)
    (hinfo : env.efa_get_efa_info = true) (hattr : env.ofi_check_domain_attr = 0)
    (hcalloc : env.calloc = some a) (hfail : FailsAt cfg env info a p f) :
    ∃ r acq, efa_domain_open cfg env fabric info p = some r ∧
      r.proc.trace = p.trace ++ acq ++ expected_cleanup a f ∧
      (∀ e ∈ acq, is_undo e = false ∧ is_store_domain_fid e = false) ∧
      expected_cleanup a f = (acq.filterMap undo_of).reverse ∧
      (acq ++ expected_cleanup a f).count (.free a) = 1 ∧
      r.domain_fid = none := by
  cases f with
  | ofi_domain_init =>
    simp only [FailsAt] at hfail
    refine ⟨_, [.efa_get_efa_info true, .ofi_check_domain_attr 0, .calloc (some a),
      .ofi_domain_init a env.ofi_domain_init],
      open_fail_init cfg env fabric info p a hinfo hattr hcalloc hfail, ?_⟩
    simp [expected_cleanup, is_undo, is_store_domain_fid, undo_of, hfail]
  | fi_dupinfo =>
    simp only [FailsAt] at hfail
    refine ⟨_, [.efa_get_efa_info true, .ofi_check_domain_attr 0, .calloc (some a),
      .ofi_domain_init a 0, .fi_dupinfo a false],
      open_fail_dupinfo cfg env fabric info p a hinfo hattr hcalloc hfail.1 hfail.2, ?_⟩
    simp [expected_cleanup, is_undo, is_store_domain_fid, undo_of]
  | efa_open_device_by_name =>
    simp only [FailsAt] at hfail
    obtain ⟨h0, h2, h3⟩ := hfail
    have h3b : (efa_open_device_by_name cfg env (domain_at_resolve a info) info.name
        (proc_at_resolve p a)).ret ≠ 0 := by
      rw [efa_open_device_by_name_ret_indep cfg env _ (domain_at_resolve a info) info.name
        _ p rfl]
      exact h3
    obtain ⟨evs, hp, hevs⟩ := efa_open_device_by_name_proc cfg env (domain_at_resolve a info)
      info.name (proc_at_resolve p a)
    refine ⟨err_free_info
        (efa_open_device_by_name cfg env (domain_at_resolve a info) info.name
          (proc_at_resolve p a)).domain
        (efa_open_device_by_name cfg env (domain_at_resolve a info) info.name
          (proc_at_resolve p a)).ret
        (efa_open_device_by_name cfg env (domain_at_resolve a info) info.name
          (proc_at_resolve p a)).proc,
      [.efa_get_efa_info true, .ofi_check_domain_attr 0, .calloc (some a),
      .ofi_domain_init a 0, .fi_dupinfo a true] ++ evs, ?_, ?_, ?_, ?_, ?_, ?_⟩
    · rw [efa_domain_open_from_resolve cfg env fabric info p a hinfo hattr hcalloc h0 h2,
        if_pos h3b]
    · simp only [err_free_info_eq, hp, efa_open_device_by_name_addr]
      simp [proc_at_resolve_eq, domain_at_resolve, efa_domain.zeroed, expected_cleanup]
    · exact acq_no_cleanup env a evs (resolver_events_weaken env a evs hevs)
    · exact acq_undo_reverse env a evs (resolver_events_weaken env a evs hevs)
    · exact acq_free_once env a evs (resolver_events_weaken env a evs hevs)
    · simp [err_free_info_eq]
  | efa_cmd_alloc_pd =>
    simp only [FailsAt] at hfail
    obtain ⟨h0, h2, h3, h4⟩ := hfail
    have h3b : ¬ (efa_open_device_by_name cfg env (domain_at_resolve a info) info.name
        (proc_at_resolve p a)).ret ≠ 0 := by
      rw [efa_open_device_by_name_ret_indep cfg env _ (domain_at_resolve a info) info.name
        _ p rfl]
      simp [h3]
    obtain ⟨evs, hp, hevs⟩ := efa_open_device_by_name_proc cfg env (domain_at_resolve a info)
      info.name (proc_at_resolve p a)
    have hevs2 : ∀ e ∈ evs ++ [Event.efa_cmd_alloc_pd a false],
        e = .efa_device_get_context_list env.ctx_list.isSome ∨
        e = .efa_device_free_context_list ∨ e = .efa_cmd_alloc_pd a false := by
      intro e he
      rcases List.mem_append.mp he with he | he
      · rcases hevs e he with h | h
        · exact Or.inl h
        · exact Or.inr (Or.inl h)
      · exact Or.inr (Or.inr (by simpa using he))
    refine ⟨err_free_info
        (efa_open_device_by_name cfg env (domain_at_resolve a info) info.name
          (proc_at_resolve p a)).domain
        (-env.errno_alloc_pd)
        ((efa_open_device_by_name cfg env (domain_at_resolve a info) info.name
          (proc_at_resolve p a)).proc.log (.efa_cmd_alloc_pd a false)),
      [.efa_get_efa_info true, .ofi_check_domain_attr 0, .calloc (some a),
      .ofi_domain_init a 0, .fi_dupinfo a true] ++ (evs ++ [.efa_cmd_alloc_pd a false]),
      ?_, ?_, ?_, ?_, ?_, ?_⟩
    · rw [efa_domain_open_from_resolve cfg env fabric info p a hinfo hattr hcalloc h0 h2,
        if_neg h3b, h4]
    · simp only [err_free_info_eq, hp, efa_open_device_by_name_addr, Proc.log]
      simp [proc_at_resolve_eq, domain_at_resolve, efa_domain.zeroed, expected_cleanup]
    · exact acq_no_cleanup env a _ hevs2
    · exact acq_undo_reverse env a _ hevs2
    · exact acq_free_once env a _ hevs2
    · simp [err_free_info_eq]
/-! ## `efa_domain_close` -/

/-- C7: when the domain holds a protection context and `efa_cmd_dealloc_pd`
fails, `efa_domain_close` returns that error code, the domain object is
neither freed nor changed (its `pd` stays non-NULL), the call of
`efa_cmd_dealloc_pd` is the last event and no later teardown step
(`domain->pd = NULL`, `ofi_domain_close`, `fi_freeinfo`, `free`) runs. When
the deallocation succeeds, the store `domain->pd = NULL` comes right after it
and before `ofi_domain_close`, and a domain object that survives the call has
a NULL `pd`. -/
theorem efa_domain_close_dealloc_pd (env : CloseEnv) (domain : efa_domain) (p : Proc)
    (pd : efa_pd) (hpd : domain.pd = some pd) :
    (env.efa_cmd_dealloc_pd ≠ 0 →
      (efa_domain_close env domain p).ret = env.efa_cmd_dealloc_pd ∧
      (efa_domain_close env domain p).domain = some domain ∧
      (efa_domain_close env domain p).proc.trace = p.trace ++ cache_cleanup_events p domain ++
        [.efa_cmd_dealloc_pd domain.addr env.efa_cmd_dealloc_pd] ∧
      ∀ e ∈ (efa_domain_close env domain p).proc.trace.drop p.trace.length,
        is_late_teardown e = false) ∧
    (env.efa_cmd_dealloc_pd = 0 →
      (p.trace ++ cache_cleanup_events p domain ++
        [.efa_cmd_dealloc_pd domain.addr 0, .store_pd_null domain.addr,
          .ofi_domain_close domain.addr]) <+: (efa_domain_close env domain p).proc.trace ∧
      ∀ d, (efa_domain_close env domain p).domain = some d → d.pd = none) := by
  refine ⟨?_, ?_⟩
  · intro h
    by_cases he : p.efa_mr_cache_enable = 0 <;>
      simp [efa_domain_close, cache_cleanup_events, hpd, h, he, Proc.log, is_late_teardown]
  · intro h
    by_cases he : p.efa_mr_cache_enable = 0 <;>
      by_cases hc : env.ofi_domain_close = 0 <;>
      simp [efa_domain_close, cache_cleanup_events, hpd, h, he, hc, Proc.log]

theorem efa_domain_close_dealloc_pd_witness :
    domain_ex.pd = some { pdn := 7 } ∧
    (efa_domain_close close_env_fail domain_ex proc_ex).ret = -16 ∧
    (efa_domain_close close_env_fail domain_ex proc_ex).domain = some domain_ex ∧
    (∀ d, (efa_domain_close { close_env_ok with ofi_domain_close := -5 } domain_ex proc_ex).domain
      = some d → d.pd = none) :=
  ⟨by decide,
   ((efa_domain_close_dealloc_pd close_env_fail domain_ex proc_ex { pdn := 7 } (by decide)).1
      (by decide)).1,
   ((efa_domain_close_dealloc_pd close_env_fail domain_ex proc_ex { pdn := 7 } (by decide)).1
      (by decide)).2.1,
   ((efa_domain_close_dealloc_pd { close_env_ok with ofi_domain_close := -5 } domain_ex proc_ex
      { pdn := 7 } (by decide)).2 (by decide)).2⟩
/-! ## Evaluations -/

theorem efa_open_device_by_name_first_match_witness :
    env_ex.ctx_list = some [dev0] ∧ WfStr (cstr "dev0-rdm") ∧
    (∀ c ∈ [dev0], WfStr c.name) ∧
    strlen (mode_suffix cfg_ex (domain_at_resolve 1 info_ex).rdm) ≤ strlen (cstr "dev0-rdm") ∧
    strlen (cstr "dev0-rdm") < 2 ^ 31 ∧
    (∃ c ∈ [dev0], AgreeOn (strlen (cstr "dev0-rdm") - strlen (mode_suffix cfg_ex
        (domain_at_resolve 1 info_ex).rdm)) (cstr "dev0-rdm") c.name) ∧
    (efa_open_device_by_name cfg_ex env_ex (domain_at_resolve 1 info_ex)
      (some (cstr "dev0-rdm")) proc_ex).ret = 0 := by
  obtain ⟨_, _, _, _, _, _, hret, _, _⟩ :=
    efa_open_device_by_name_first_match cfg_ex env_ex (domain_at_resolve 1 info_ex)
      (cstr "dev0-rdm") [dev0] proc_ex rfl (by decide) (by decide) (by decide) (by decide)
      ⟨dev0, by decide, by decide⟩
  exact ⟨rfl, by decide, by decide, by decide, by decide, ⟨dev0, by decide, by decide⟩, hret⟩

/-- C1: the list holds the single device `dev0` and the request is `dev1-rdm`
in reliable-datagram mode, so no device name agrees with the request on its
first 4 bytes; `efa_open_device_by_name` returns 1, the value of the last
`strncmp`, which is not `-FI_ENODEV`, and `efa_domain_open` returns 1 too. -/
theorem efa_open_device_by_name_no_match_ret :
    (∀ c ∈ [dev0], ¬ AgreeOn 4 (cstr "dev1-rdm") c.name) ∧
    (efa_open_device_by_name cfg_ex env_ex (domain_at_resolve 1 info_ex)
      (some (cstr "dev1-rdm")) proc_ex).ret = 1 ∧
    (efa_open_device_by_name cfg_ex env_ex (domain_at_resolve 1 info_ex)
      (some (cstr "dev1-rdm")) proc_ex).ret ≠ -FI_ENODEV ∧
    (efa_domain_open cfg_ex env_ex 0 { info_ex with name := some (cstr "dev1-rdm") }
      proc_ex).map (fun r => r.ret) = some 1 := by
  refine ⟨by decide, by decide, by decide, by decide⟩

/-- C10: the request `ab` is shorter than the suffix `-rdm`, so `name_len` is
-2 and `strncmp` is called with the length `2 ^ 64 - 2`; with a device named
`ab` in the list, `efa_open_device_by_name` returns 0 and stores that device
in `domain->ctx`. -/
theorem efa_open_device_by_name_short_name :
    strlen (cstr "ab") < strlen cfg_ex.rdm_suffix ∧
    name_len (cstr "ab") cfg_ex.rdm_suffix = -2 ∧
    to_size_t (name_len (cstr "ab") cfg_ex.rdm_suffix) = 2 ^ 64 - 2 ∧
    (efa_open_device_by_name cfg_ex { env_ex with ctx_list := some [dev_ab] }
      (domain_at_resolve 1 info_ex) (some (cstr "ab")) proc_ex).ret = 0 ∧
    (efa_open_device_by_name cfg_ex { env_ex with ctx_list := some [dev_ab] }
      (domain_at_resolve 1 info_ex) (some (cstr "ab")) proc_ex).domain.ctx = some dev_ab := by
  refine ⟨by decide, by decide, by decide, by decide, by decide⟩

/-- The resolver reports success without a device: when
`efa_device_get_context_list` returns NULL and `errno` is 0,
`efa_open_device_by_name` returns `-errno = 0` and leaves `domain->ctx` NULL. -/
theorem efa_open_device_by_name_zero_errno :
    (efa_open_device_by_name cfg_ex env_list_null (domain_at_resolve 1 info_ex) info_ex.name
      proc_ex).ret = 0 ∧
    (efa_open_device_by_name cfg_ex env_list_null (domain_at_resolve 1 info_ex) info_ex.name
      proc_ex).domain.ctx = none := by
  refine ⟨by decide, by decide⟩

/-- C6: when `efa_cmd_alloc_pd` returns NULL and `errno` is 0,
`efa_domain_open` takes the error path (the domain object is freed, nothing is
stored through `domain_fid`) and returns `-errno = 0`: a return value of 0
without a published domain. -/
theorem efa_domain_open_zero_errno :
    env_pd_null.efa_cmd_alloc_pd = none ∧ env_pd_null.errno_alloc_pd = 0 ∧
    (efa_domain_open cfg_ex env_pd_null 0 info_ex proc_ex).map (fun r => (r.ret, r.domain_fid))
      = some (0, none) ∧
    (efa_domain_open cfg_ex env_pd_null 0 info_ex proc_ex).map (fun r => r.proc.trace)
      = some [.efa_get_efa_info true, .ofi_check_domain_attr 0, .calloc (some 1),
          .ofi_domain_init 1 0, .fi_dupinfo 1 true, .efa_device_get_context_list true,
          .efa_device_free_context_list, .efa_cmd_alloc_pd 1 false,
          .fi_freeinfo 1, .ofi_domain_close 1, .free 1] := by
  refine ⟨by decide, by decide, by decide, by decide⟩

/-- C4: domain A is opened with a working cache, then domain B is opened and
its `ofi_mr_cache_init` fails, which clears `efa_mr_cache_enable`; the close
of A that follows succeeds and frees A without calling `ofi_mr_cache_cleanup`
for A. -/
theorem efa_domain_close_skips_cache_cleanup :
    efa_domain_open cfg_ex env_ex 0 info_ex proc_ex = some open_A ∧
    open_A.domain_fid = some domain_A ∧
    domain_A.mr = some .efa_domain_mr_cache_ops ∧
    Event.ofi_mr_cache_init domain_A.addr 0 ∈ open_A.proc.trace ∧
    efa_domain_open cfg_ex env_cache_fail 0 info_ex open_A.proc = some open_B_after_A ∧
    open_B_after_A.proc.efa_mr_cache_enable = 0 ∧
    (efa_domain_close close_env_ok domain_A open_B_after_A.proc).ret = 0 ∧
    (efa_domain_close close_env_ok domain_A open_B_after_A.proc).domain = none ∧
    (efa_domain_close close_env_ok domain_A open_B_after_A.proc).proc.trace.drop
        open_B_after_A.proc.trace.length
      = [.efa_cmd_dealloc_pd domain_A.addr 0, .store_pd_null domain_A.addr,
          .ofi_domain_close domain_A.addr, .fi_freeinfo domain_A.addr, .free domain_A.addr] ∧
    Event.ofi_mr_cache_cleanup domain_A.addr ∉
      (efa_domain_close close_env_ok domain_A open_B_after_A.proc).proc.trace := by
  refine ⟨?_, ?_, ?_, ?_, ?_, ?_, ?_, ?_, ?_, ?_⟩ <;> decide
/-! ## The cache step -/

theorem efa_domain_open_mr_cache_spec (cfg : Config) (env : OpenEnv) (info : fi_info)
    (d : efa_domain) (p : Proc) (r : OpenResult)
    (h : efa_domain_open_mr_cache cfg env info d p = some r) :
    r.ret = 0 ∧
    (∃ d1, r.domain_fid = some d1 ∧ d1.addr = d.addr ∧ d1.ctx = d.ctx ∧ d1.pd = d.pd ∧
      d1.info = d.info ∧
      ((p.efa_mr_cache_enable ≠ 0 ∧ env.ofi_mr_cache_init = 0) →
        d1.mr = some .efa_domain_mr_cache_ops ∧
        r.proc.efa_mr_cache_enable = p.efa_mr_cache_enable) ∧
      (¬ (p.efa_mr_cache_enable ≠ 0 ∧ env.ofi_mr_cache_init = 0) →
        d1.mr = some .efa_domain_mr_ops ∧ r.proc.efa_mr_cache_enable = 0)) ∧
    (p.efa_mr_max_cached_count ≠ 0 → r.proc.efa_mr_max_cached_count = p.efa_mr_max_cached_count) ∧
    (p.efa_mr_max_cached_size ≠ 0 → r.proc.efa_mr_max_cached_size = p.efa_mr_max_cached_size) ∧
    (p.efa_mr_cache_enable ≠ 0 → p.efa_mr_max_cached_count = 0 →
      r.proc.efa_mr_max_cached_count = info.mr_cnt / cfg.EFA_DEF_NUM_MR_CACHE) ∧
    (p.efa_mr_cache_enable ≠ 0 → p.efa_mr_max_cached_size = 0 →
      ∃ c, d.ctx = some c ∧
        r.proc.efa_mr_max_cached_size = c.max_mr_size / cfg.EFA_DEF_NUM_MR_CACHE) ∧
    (p.efa_mr_cache_enable = 0 →
      r.proc.efa_mr_max_cached_count = p.efa_mr_max_cached_count ∧
      r.proc.efa_mr_max_cached_size = p.efa_mr_max_cached_size ∧
      r.proc.cache_params = p.cache_params) ∧
    r.proc.efa_mr_cache_merge_regions = p.efa_mr_cache_merge_regions ∧
    r.proc.trace = p.trace ++
      (if p.efa_mr_cache_enable ≠ 0 then [.ofi_mr_cache_init d.addr env.ofi_mr_cache_init]
       else []) := by
  unfold efa_domain_open_mr_cache at h
  by_cases he : p.efa_mr_cache_enable = 0
  · simp [he, bind_uncached] at h
    subst h
    simp [he]
  · by_cases hc : p.efa_mr_max_cached_count = 0 <;>
    by_cases hs : p.efa_mr_max_cached_size = 0 <;>
    cases hctx : d.ctx <;>
    by_cases hi : env.ofi_mr_cache_init = 0 <;>
    simp [he, hc, hs, hctx, hi, bind_uncached, Proc.log] at h <;>
    subst h <;>
    simp [he, hc, hs, hi]

theorem efa_domain_open_mr_cache_isSome (cfg : Config) (env : OpenEnv) (info : fi_info)
    (d : efa_domain) (p : Proc)
    (h : d.ctx ≠ none ∨ p.efa_mr_cache_enable = 0) :
    ∃ r, efa_domain_open_mr_cache cfg env info d p = some r := by
  unfold efa_domain_open_mr_cache
  by_cases he : p.efa_mr_cache_enable = 0
  · simp [he]
  · rcases h with h | h
    · cases hc : d.ctx with
      | none => exact absurd hc h
      | some c =>
      by_cases hs : (if p.efa_mr_max_cached_count = 0 then
          { p with efa_mr_max_cached_count := info.mr_cnt / cfg.EFA_DEF_NUM_MR_CACHE }
          else p).efa_mr_max_cached_size = 0 <;>
      by_cases hi : env.ofi_mr_cache_init = 0 <;>
      simp [he, hs, hc, hi]
    · exact absurd h he
/-! ## The paths of `efa_domain_open` -/

theorem ctx_loop_ret_zero (name : CStr) (n : Nat) (l : List efa_context) (ret : Int)
    (h : (ctx_loop name n l ret).1 = 0) (hr : ret ≠ 0) :
    ∃ c ∈ l, (ctx_loop name n l ret).2 = some c ∧ strncmp name c.name n = 0 := by
  induction l generalizing ret with
  | nil => simp [ctx_loop] at h; exact absurd h hr
  | cons c rest ih =>
    by_cases hc : strncmp name c.name n = 0
    · exact ⟨c, by simp, by simp [ctx_loop, hc], hc⟩
    · simp only [ctx_loop, hc, if_false] at h ⊢
      obtain ⟨x, hx, h1, h2⟩ := ih _ h hc
      exact ⟨x, by simp [hx], h1, h2⟩

theorem efa_open_device_by_name_ctx (cfg : Config) (env : OpenEnv) (domain : efa_domain)
    (name : Option CStr) (p : Proc) (l : List efa_context) (hl : env.ctx_list = some l)
    (h : (efa_open_device_by_name cfg env domain name p).ret = 0) :
    ∃ c ∈ l, (efa_open_device_by_name cfg env domain name p).domain
      = { domain with ctx := some c } := by
  cases name with
  | none => simp [efa_open_device_by_name, FI_EINVAL] at h
  | some name =>
    simp only [efa_open_device_by_name, hl] at h ⊢
    obtain ⟨c, hc, h1, _⟩ := ctx_loop_ret_zero _ _ _ _ h (by simp [FI_ENODEV])
    exact ⟨c, hc, by rw [h1]⟩

theorem efa_open_device_by_name_fields (cfg : Config) (env : OpenEnv) (domain : efa_domain)
    (name : Option CStr) (p : Proc) :
    (efa_open_device_by_name cfg env domain name p).domain.info = domain.info ∧
    (efa_open_device_by_name cfg env domain name p).domain.pd = domain.pd ∧
    ((efa_open_device_by_name cfg env domain name p).domain.ctx = domain.ctx ∨
      ∃ c, (efa_open_device_by_name cfg env domain name p).domain.ctx = some c) := by
  cases name with
  | none => simp [efa_open_device_by_name]
  | some name =>
    cases hl : env.ctx_list with
    | none => simp [efa_open_device_by_name, hl]
    | some l =>
      simp only [efa_open_device_by_name, hl]
      split <;> simp

theorem efa_domain_open_cases (cfg : Config) (env : OpenEnv) (fabric : Nat) (info : fi_info)
    (p : Proc) :
    (∃ ret evs, efa_domain_open cfg env fabric info p
        = some (OpenResult.mk ret none { p with trace := p.trace ++ evs }) ∧
      (∀ e ∈ evs, is_mr_cache_init e = false ∧ is_store_domain_fid e = false) ∧
      (ret = 0 → (env.efa_cmd_alloc_pd = none ∧ env.errno_alloc_pd = 0) ∨
        (env.ctx_list = none ∧ env.errno_ctx_list = 0))) ∨
    (∃ a pd evs, env.calloc = some a ∧ env.efa_cmd_alloc_pd = some pd ∧
      (efa_open_device_by_name cfg env (domain_at_resolve a info) info.name
        (proc_at_resolve p a)).ret = 0 ∧
      efa_domain_open cfg env fabric info p = efa_domain_open_mr_cache cfg env info
        ((efa_open_device_by_name cfg env (domain_at_resolve a info) info.name
          (proc_at_resolve p a)).domain.with_pd pd fabric)
        { p with trace := p.trace ++ evs } ∧
      (∀ e ∈ evs, is_mr_cache_init e = false) ∧ Event.store_domain_fid a ∈ evs) := by
  by_cases hinfo : env.efa_get_efa_info = true
  swap
  · left
    refine ⟨-FI_EINVAL, [.efa_get_efa_info false], ?_, ?_, ?_⟩
    · simp [efa_domain_open, hinfo, Proc.log]
    · simp [is_mr_cache_init, is_store_domain_fid]
    · simp [FI_EINVAL]
  by_cases hattr : env.ofi_check_domain_attr = 0
  swap
  · left
    refine ⟨env.ofi_check_domain_attr, [.efa_get_efa_info true,
      .ofi_check_domain_attr env.ofi_check_domain_attr], ?_, ?_, ?_⟩
    · simp [efa_domain_open, hinfo, hattr, Proc.log]
    · simp [is_mr_cache_init, is_store_domain_fid]
    · intro h; exact absurd h hattr
  cases hcalloc : env.calloc with
  | none =>
    left
    refine ⟨-FI_ENOMEM, [.efa_get_efa_info true, .ofi_check_domain_attr 0, .calloc none],
      ?_, ?_, ?_⟩
    · simp [efa_domain_open, hinfo, hattr, hcalloc, Proc.log]
    · simp [is_mr_cache_init, is_store_domain_fid]
    · simp [FI_ENOMEM]
  | some a =>
    by_cases h0 : env.ofi_domain_init = 0
    swap
    · left
      refine ⟨env.ofi_domain_init, [.efa_get_efa_info true, .ofi_check_domain_attr 0,
        .calloc (some a), .ofi_domain_init a env.ofi_domain_init, .free a], ?_, ?_, ?_⟩
      · rw [open_fail_init cfg env fabric info p a hinfo hattr hcalloc h0]; simp
      · simp [is_mr_cache_init, is_store_domain_fid]
      · intro h; exact absurd h h0
    by_cases h2 : env.fi_dupinfo = true
    swap
    · left
      refine ⟨-FI_ENOMEM, [.efa_get_efa_info true, .ofi_check_domain_attr 0,
        .calloc (some a), .ofi_domain_init a 0, .fi_dupinfo a false, .ofi_domain_close a,
        .free a], ?_, ?_, ?_⟩
      · rw [open_fail_dupinfo cfg env fabric info p a hinfo hattr hcalloc h0
          (by simpa using h2)]; simp
      · simp [is_mr_cache_init, is_store_domain_fid]
      · simp [FI_ENOMEM]
    have hopen := efa_domain_open_from_resolve cfg env fabric info p a hinfo hattr hcalloc h0 h2
    obtain ⟨evs, hp, hevs⟩ := efa_open_device_by_name_proc cfg env (domain_at_resolve a info)
      info.name (proc_at_resolve p a)
    have haddr := efa_open_device_by_name_addr cfg env (domain_at_resolve a info)
      info.name (proc_at_resolve p a)
    by_cases h3 : (efa_open_device_by_name cfg env (domain_at_resolve a info) info.name
        (proc_at_resolve p a)).ret = 0
    swap
    · left
      refine ⟨(efa_open_device_by_name cfg env (domain_at_resolve a info) info.name
          (proc_at_resolve p a)).ret,
        [.efa_get_efa_info true, .ofi_check_domain_attr 0, .calloc (some a),
        .ofi_domain_init a 0, .fi_dupinfo a true] ++ evs ++
        [.fi_freeinfo a, .ofi_domain_close a, .free a], ?_, ?_, ?_⟩
      · rw [hopen, if_pos h3, err_free_info_eq, hp, haddr]
        simp [proc_at_resolve_eq, domain_at_resolve, efa_domain.zeroed]
      · intro e he
        simp only [List.mem_append, List.mem_cons, List.mem_singleton, List.not_mem_nil,
          or_false] at he
        rcases he with ((rfl | rfl | rfl | rfl | rfl) | he) | (rfl | rfl | rfl)
        all_goals first
          | exact ⟨rfl, rfl⟩
          | (rcases hevs e he with rfl | rfl <;> exact ⟨rfl, rfl⟩)
      · intro h; exact absurd h h3
    cases hpd : env.efa_cmd_alloc_pd with
    | none =>
      left
      refine ⟨-env.errno_alloc_pd, [.efa_get_efa_info true, .ofi_check_domain_attr 0,
        .calloc (some a), .ofi_domain_init a 0, .fi_dupinfo a true] ++ evs ++
        [.efa_cmd_alloc_pd a false, .fi_freeinfo a, .ofi_domain_close a, .free a], ?_, ?_, ?_⟩
      · rw [hopen, if_neg (by simpa using h3), hpd]
        simp only [err_free_info_eq, Proc.log, hp, haddr]
        simp [proc_at_resolve_eq, domain_at_resolve, efa_domain.zeroed]
      · intro e he
        simp only [List.mem_append, List.mem_cons, List.mem_singleton, List.not_mem_nil,
          or_false] at he
        rcases he with ((rfl | rfl | rfl | rfl | rfl) | he) | (rfl | rfl | rfl | rfl)
        all_goals first
          | exact ⟨rfl, rfl⟩
          | (rcases hevs e he with rfl | rfl <;> exact ⟨rfl, rfl⟩)
      · intro h
        left
        exact ⟨rfl, by omega⟩
    | some pd =>
      right
      refine ⟨a, pd, [.efa_get_efa_info true, .ofi_check_domain_attr 0,
        .calloc (some a), .ofi_domain_init a 0, .fi_dupinfo a true] ++ evs ++
        [.efa_cmd_alloc_pd a true, .store_domain_fid a], rfl, rfl, h3, ?_, ?_, ?_⟩
      · rw [hopen, if_neg (by simpa using h3), hpd]
        simp only [Proc.log, hp]
        simp [proc_at_resolve_eq]
      · intro e he
        simp only [List.mem_append, List.mem_cons, List.mem_singleton, List.not_mem_nil,
          or_false] at he
        rcases he with ((rfl | rfl | rfl | rfl | rfl) | he) | (rfl | rfl)
        all_goals first
          | rfl
          | (rcases hevs e he with rfl | rfl <;> rfl)
      · simp
/-! ## The cache step cannot fail the open -/

theorem efa_domain_close_proc (env : CloseEnv) (domain : efa_domain) (p : Proc) :
    ∃ evs, (efa_domain_close env domain p).proc = { p with trace := p.trace ++ evs } ∧
      ∀ e ∈ evs, is_mr_cache_init e = false := by
  by_cases he : p.efa_mr_cache_enable = 0 <;>
  cases hpd : domain.pd <;>
  by_cases hd : env.efa_cmd_dealloc_pd = 0 <;>
  by_cases hc : env.ofi_domain_close = 0 <;>
  simp [efa_domain_close, he, hpd, hd, hc, Proc.log, is_mr_cache_init]

theorem efa_domain_open_keeps_set (cfg : Config) (env : OpenEnv) (fabric : Nat)
    (info : fi_info) (p : Proc) (r : OpenResult)
    (h : efa_domain_open cfg env fabric info p = some r) :
    (p.efa_mr_max_cached_count ≠ 0 →
      r.proc.efa_mr_max_cached_count = p.efa_mr_max_cached_count) ∧
    (p.efa_mr_max_cached_size ≠ 0 →
      r.proc.efa_mr_max_cached_size = p.efa_mr_max_cached_size) := by
  rcases efa_domain_open_cases cfg env fabric info p with
    ⟨ret, evs, hopen, -, -⟩ | ⟨a, pd, evs, -, -, -, hopen, -, -⟩
  · rw [hopen] at h
    cases h
    simp
  · rw [hopen] at h
    obtain ⟨-, -, hcnt, hsize, -⟩ := efa_domain_open_mr_cache_spec cfg env info _ _ r h
    exact ⟨hcnt, hsize⟩

theorem efa_domain_open_disabled (cfg : Config) (env : OpenEnv) (fabric : Nat)
    (info : fi_info) (p : Proc) (he : p.efa_mr_cache_enable = 0) :
    ∃ r, efa_domain_open cfg env fabric info p = some r ∧
      r.proc.efa_mr_cache_enable = 0 ∧ SameCacheConfig p r.proc ∧
      (∃ evs, r.proc.trace = p.trace ++ evs ∧ ∀ e ∈ evs, is_mr_cache_init e = false) ∧
      ∀ d, r.domain_fid = some d → d.mr = some .efa_domain_mr_ops := by
  rcases efa_domain_open_cases cfg env fabric info p with
    ⟨ret, evs, hopen, hevs, -⟩ | ⟨a, pd, evs, -, -, -, hopen, hevs, -⟩
  · refine ⟨_, hopen, by simp [he], by simp [SameCacheConfig], ⟨evs, rfl, ?_⟩, by simp⟩
    intro e hx
    exact (hevs e hx).1
  · have heq : ({ p with trace := p.trace ++ evs } : Proc).efa_mr_cache_enable = 0 := he
    obtain ⟨r, hr⟩ := efa_domain_open_mr_cache_isSome cfg env info
      ((efa_open_device_by_name cfg env (domain_at_resolve a info) info.name
          (proc_at_resolve p a)).domain.with_pd pd fabric)
      { p with trace := p.trace ++ evs } (Or.inr heq)
    obtain ⟨-, ⟨d, hd, -, -, -, -, -, hno⟩, -, -, -, -, hsame, hmerge, htrace⟩ :=
      efa_domain_open_mr_cache_spec cfg env info _ _ r hr
    have hno2 := hno (fun hcon => hcon.1 heq)
    obtain ⟨hs1, hs2, hs3⟩ := hsame heq
    refine ⟨r, hopen.trans hr, hno2.2, ⟨hs1, hs2, hmerge, hs3⟩, ⟨evs, ?_, hevs⟩, ?_⟩
    · rw [htrace]; simp [he]
    · intro d1 hd1
      rw [hd] at hd1
      cases hd1
      exact hno2.1

theorem run_disabled (cfg : Config) (ops : List Op) :
    ∀ p : Proc, p.efa_mr_cache_enable = 0 →
    ∃ rs q, run cfg p ops = some (rs, q) ∧
      (∀ x ∈ rs, x.proc.efa_mr_cache_enable = 0 ∧ SameCacheConfig p x.proc) ∧
      q.efa_mr_cache_enable = 0 ∧ SameCacheConfig p q ∧
      (∃ evs, q.trace = p.trace ++ evs ∧ ∀ e ∈ evs, is_mr_cache_init e = false) ∧
      (∀ r1 d, OpResult.opened r1 ∈ rs → r1.domain_fid = some d →
        d.mr = some .efa_domain_mr_ops) := by
  induction ops with
  | nil =>
    intro p he
    exact ⟨[], p, rfl, by simp, he, ⟨rfl, rfl, rfl, rfl⟩, ⟨[], by simp, by simp⟩, by simp⟩
  | cons op ops ih =>
    intro p he
    have hstep : ∃ x, step cfg p op = some x ∧ x.proc.efa_mr_cache_enable = 0 ∧
        SameCacheConfig p x.proc ∧
        (∃ evs, x.proc.trace = p.trace ++ evs ∧ ∀ e ∈ evs, is_mr_cache_init e = false) ∧
        (∀ r1 d, x = OpResult.opened r1 → r1.domain_fid = some d →
          d.mr = some .efa_domain_mr_ops) := by
      cases op with
      | domain_open env fabric info =>
        obtain ⟨r, hr, h1, h2, h3, h4⟩ := efa_domain_open_disabled cfg env fabric info p he
        refine ⟨.opened r, by simp [step, hr], h1, h2, h3, ?_⟩
        intro r1 d hx
        cases hx
        exact h4 d
      | domain_close env domain =>
        obtain ⟨evs, hp, hevs⟩ := efa_domain_close_proc env domain p
        refine ⟨.closed (efa_domain_close env domain p), rfl, ?_, ?_, ⟨evs, ?_, hevs⟩, ?_⟩
        · simp only [OpResult.proc, hp]; exact he
        · simp only [OpResult.proc, hp]; exact ⟨rfl, rfl, rfl, rfl⟩
        · simp only [OpResult.proc, hp]
        · intro r1 d hx; cases hx
    obtain ⟨x, hx, hxe, hxc, ⟨evs1, ht1, hevs1⟩, hxm⟩ := hstep
    obtain ⟨rs, q, hrun, hall, hqe, hqc, ⟨evs2, ht2, hevs2⟩, hm⟩ := ih x.proc hxe
    have htrans : ∀ z : Proc, SameCacheConfig x.proc z → SameCacheConfig p z := by
      intro z hz
      exact ⟨hz.1.trans hxc.1, hz.2.1.trans hxc.2.1, hz.2.2.1.trans hxc.2.2.1,
        hz.2.2.2.trans hxc.2.2.2⟩
    refine ⟨x :: rs, q, by simp [run, hx, hrun], ?_, hqe, htrans q hqc,
      ⟨evs1 ++ evs2, by rw [ht2, ht1, List.append_assoc], ?_⟩, ?_⟩
    · intro y hy
      rcases List.mem_cons.mp hy with rfl | hy
      · exact ⟨hxe, hxc⟩
      · exact ⟨(hall y hy).1, htrans _ (hall y hy).2⟩
    · intro e hmem
      rcases List.mem_append.mp hmem with h | h
      · exact hevs1 e h
      · exact hevs2 e h
    · intro r1 d hmem hd
      rcases List.mem_cons.mp hmem with h | h
      · exact hxm r1 d h.symm hd
      · exact hm r1 d h hd

theorem run_keeps_set (cfg : Config) (ops : List Op) :
    ∀ (p : Proc) (rs : List OpResult) (q : Proc), run cfg p ops = some (rs, q) →
      (p.efa_mr_max_cached_count ≠ 0 →
        q.efa_mr_max_cached_count = p.efa_mr_max_cached_count ∧
        ∀ x ∈ rs, x.proc.efa_mr_max_cached_count = p.efa_mr_max_cached_count) ∧
      (p.efa_mr_max_cached_size ≠ 0 →
        q.efa_mr_max_cached_size = p.efa_mr_max_cached_size ∧
        ∀ x ∈ rs, x.proc.efa_mr_max_cached_size = p.efa_mr_max_cached_size) := by
  induction ops with
  | nil =>
    intro p rs q h
    simp only [run, Option.some.injEq, Prod.mk.injEq] at h
    obtain ⟨rfl, rfl⟩ := h
    simp
  | cons op ops ih =>
    intro p rs q h
    simp only [run] at h
    cases hstep : step cfg p op with
    | none => simp [hstep] at h
    | some x =>
      cases hrun : run cfg x.proc ops with
      | none => simp [hstep, hrun] at h
      | some res =>
        obtain ⟨rs1, q1⟩ := res
        simp only [hstep, hrun, Option.some.injEq, Prod.mk.injEq] at h
        obtain ⟨rfl, rfl⟩ := h
        have hx : (p.efa_mr_max_cached_count ≠ 0 →
              x.proc.efa_mr_max_cached_count = p.efa_mr_max_cached_count) ∧
            (p.efa_mr_max_cached_size ≠ 0 →
              x.proc.efa_mr_max_cached_size = p.efa_mr_max_cached_size) := by
          cases op with
          | domain_open env fabric info =>
            simp only [step] at hstep
            cases ho : efa_domain_open cfg env fabric info p with
            | none => simp [ho] at hstep
            | some r =>
              simp only [ho, Option.map, Option.some.injEq] at hstep
              subst hstep
              exact efa_domain_open_keeps_set cfg env fabric info p r ho
          | domain_close env domain =>
            simp only [step, Option.some.injEq] at hstep
            subst hstep
            obtain ⟨evs, hp, -⟩ := efa_domain_close_proc env domain p
            simp [OpResult.proc, hp]
        have hrest := ih x.proc rs1 q1 hrun
        refine ⟨fun hc => ?_, fun hs => ?_⟩
        · have h1 := hx.1 hc
          have h2 := hrest.1 (by rw [h1]; exact hc)
          refine ⟨h2.1.trans h1, fun y hy => ?_⟩
          rcases List.mem_cons.mp hy with rfl | hy
          · exact h1
          · exact (h2.2 y hy).trans h1
        · have h1 := hx.2 hs
          have h2 := hrest.2 (by rw [h1]; exact hs)
          refine ⟨h2.1.trans h1, fun y hy => ?_⟩
          rcases List.mem_cons.mp hy with rfl | hy
          · exact h1
          · exact (h2.2 y hy).trans h1

/-- C9: once an `efa_domain_open` has called `ofi_mr_cache_init` and the call
failed, every later sequence of opens and closes runs to its end with
`efa_mr_cache_enable` cleared and the cache configuration unchanged after
every call, never calls `ofi_mr_cache_init` again, and every later open that
publishes a domain binds it to `efa_domain_mr_ops`. -/
theorem cache_downgrade_is_permanent (cfg : Config) (env : OpenEnv) (fabric : Nat)
    (info : fi_info) (p : Proc) (r : OpenResult) (a : Nat) (ret : Int)
    (hopen : efa_domain_open cfg env fabric info p = some r)
    (hcalled : Event.ofi_mr_cache_init a ret ∈ r.proc.trace.drop p.trace.length)
    (hret : ret ≠ 0) (ops : List Op) :
    ∃ rs q, run cfg r.proc ops = some (rs, q) ∧
      (∀ x ∈ rs, x.proc.efa_mr_cache_enable = 0 ∧ SameCacheConfig r.proc x.proc) ∧
      q.efa_mr_cache_enable = 0 ∧ SameCacheConfig r.proc q ∧
      (∀ e ∈ q.trace.drop r.proc.trace.length, is_mr_cache_init e = false) ∧
      (∀ r1 d, OpResult.opened r1 ∈ rs → r1.domain_fid = some d →
        d.mr = some .efa_domain_mr_ops) := by
  have hflag : r.proc.efa_mr_cache_enable = 0 := by
    rcases efa_domain_open_cases cfg env fabric info p with
      ⟨ret1, evs, ho, hevs, -⟩ | ⟨a1, pd, evs, -, -, -, ho, hevs, -⟩
    · rw [ho] at hopen
      cases hopen
      simp only [List.drop_left] at hcalled
      have := (hevs _ hcalled).1
      simp [is_mr_cache_init] at this
    · rw [ho] at hopen
      obtain ⟨-, ⟨d, -, -, -, -, -, -, hno⟩, -, -, -, -, -, -, htrace⟩ :=
        efa_domain_open_mr_cache_spec cfg env info _ _ r hopen
      rw [htrace] at hcalled
      simp only [List.append_assoc, List.drop_left] at hcalled
      apply (hno ?_).2
      rintro ⟨hen, hinit⟩
      rcases List.mem_append.mp hcalled with h | h
      · have := hevs _ h
        simp [is_mr_cache_init] at this
      · have hen2 : p.efa_mr_cache_enable ≠ 0 := hen
        simp only [hen2, ne_eq, not_false_eq_true, if_true, List.mem_singleton,
          Event.ofi_mr_cache_init.injEq] at h
        exact hret (h.2.trans hinit)
  obtain ⟨rs, q, hrun, hall, hq, hcfg, ⟨evs, ht, hevs⟩, hm⟩ := run_disabled cfg ops r.proc hflag
  refine ⟨rs, q, hrun, hall, hq, hcfg, ?_, hm⟩
  rw [ht, List.drop_left]
  exact hevs

/-- C8, as the claim states it, fails: the first open has the cache enabled,
the maximum count unset and `mr_cnt = 5`, so it stores `5 / 10 = 0`; the next
open, with `mr_cnt = 1000`, finds the stored value zero and replaces it by
`1000 / 10 = 100`. -/
theorem derived_max_count_rederived :
    proc_ex.efa_mr_cache_enable ≠ 0 ∧ proc_ex.efa_mr_max_cached_count = 0 ∧
    info_small.mr_cnt / cfg_ex.EFA_DEF_NUM_MR_CACHE = 0 ∧
    (run cfg_ex proc_ex [.domain_open env_ex 0 info_small, .domain_open env_ex 0 info_ex]).map
        (fun x => x.1.map (fun r => r.proc.efa_mr_max_cached_count))
      = some [0, 100] := by
  refine ⟨by decide, by decide, by decide, by decide⟩

/-- C8, amended: an open that publishes a domain while the cache is enabled
stores `mr_cnt / EFA_DEF_NUM_MR_CACHE` as the maximum count when that was
unset, and the `max_mr_size` of the resolved device divided by
`EFA_DEF_NUM_MR_CACHE` as the maximum size when that was unset; a stored
maximum that is not zero is left unmodified by every later sequence of opens
and closes, after each call of the sequence. -/
theorem derived_defaults_kept (cfg : Config) (env : OpenEnv) (fabric : Nat)
    (info : fi_info) (p : Proc) (r : OpenResult) (d : efa_domain)
    (hopen : efa_domain_open cfg env fabric info p = some r)
    (hpub : r.domain_fid = some d) (hen : p.efa_mr_cache_enable ≠ 0) :
    (p.efa_mr_max_cached_count = 0 →
      r.proc.efa_mr_max_cached_count = info.mr_cnt / cfg.EFA_DEF_NUM_MR_CACHE) ∧
    (p.efa_mr_max_cached_size = 0 →
      ∃ c, d.ctx = some c ∧
        r.proc.efa_mr_max_cached_size = c.max_mr_size / cfg.EFA_DEF_NUM_MR_CACHE) ∧
    ∀ ops rs q, run cfg r.proc ops = some (rs, q) →
      (r.proc.efa_mr_max_cached_count ≠ 0 →
        q.efa_mr_max_cached_count = r.proc.efa_mr_max_cached_count ∧
        ∀ x ∈ rs, x.proc.efa_mr_max_cached_count = r.proc.efa_mr_max_cached_count) ∧
      (r.proc.efa_mr_max_cached_size ≠ 0 →
        q.efa_mr_max_cached_size = r.proc.efa_mr_max_cached_size ∧
        ∀ x ∈ rs, x.proc.efa_mr_max_cached_size = r.proc.efa_mr_max_cached_size) := by
  refine ⟨?_, ?_, fun ops rs q hrun => run_keeps_set cfg ops r.proc rs q hrun⟩
  · intro hc
    rcases efa_domain_open_cases cfg env fabric info p with
      ⟨ret1, evs, ho, -, -⟩ | ⟨a1, pd, evs, -, -, -, ho, -, -⟩
    · rw [ho] at hopen
      cases hopen
      cases hpub
    · rw [ho] at hopen
      obtain ⟨-, -, -, -, hcnt, -⟩ := efa_domain_open_mr_cache_spec cfg env info _ _ r hopen
      exact hcnt hen hc
  · intro hs
    rcases efa_domain_open_cases cfg env fabric info p with
      ⟨ret1, evs, ho, -, -⟩ | ⟨a1, pd, evs, -, -, -, ho, -, -⟩
    · rw [ho] at hopen
      cases hopen
      cases hpub
    · rw [ho] at hopen
      obtain ⟨-, ⟨d1, hd1, -, hctx, -⟩, -, -, -, hsz, -⟩ :=
        efa_domain_open_mr_cache_spec cfg env info _ _ r hopen
      obtain ⟨c, hc, hval⟩ := hsz hen hs
      rw [hpub] at hd1
      cases hd1
      exact ⟨c, hctx.trans hc, hval⟩

theorem derived_defaults_kept_witness :
    efa_domain_open cfg_ex env_ex 0 info_ex proc_ex = some open_A ∧
    open_A.domain_fid = some domain_A ∧ proc_ex.efa_mr_cache_enable ≠ 0 ∧
    proc_ex.efa_mr_max_cached_count = 0 ∧
    open_A.proc.efa_mr_max_cached_count = info_ex.mr_cnt / cfg_ex.EFA_DEF_NUM_MR_CACHE ∧
    open_A.proc.efa_mr_max_cached_count = 100 ∧
    run cfg_ex open_A.proc ops_ex = some (later_A.1, later_A.2) ∧
    later_A.2.efa_mr_max_cached_count = open_A.proc.efa_mr_max_cached_count :=
  ⟨by decide, by decide, by decide, by decide,
    (derived_defaults_kept cfg_ex env_ex 0 info_ex proc_ex open_A domain_A (by decide)
      (by decide) (by decide)).1 (by decide),
    by decide, rfl,
    (((derived_defaults_kept cfg_ex env_ex 0 info_ex proc_ex open_A domain_A (by decide)
      (by decide) (by decide)).2.2 ops_ex later_A.1 later_A.2 rfl).1 (by decide)).1⟩

theorem cache_downgrade_is_permanent_witness :
    efa_domain_open cfg_ex env_cache_fail 0 info_ex proc_ex = some open_B ∧
    Event.ofi_mr_cache_init 2 (-12) ∈ open_B.proc.trace.drop proc_ex.trace.length ∧
    (-12 : Int) ≠ 0 ∧
    (run cfg_ex open_B.proc ops_ex).map (fun x => x.2.efa_mr_cache_enable) = some 0 := by
  obtain ⟨rs, q, hrun, -, hq, -⟩ :=
    cache_downgrade_is_permanent cfg_ex env_cache_fail 0 info_ex proc_ex open_B 2 (-12)
      (by decide) (by decide) (by decide) ops_ex
  exact ⟨by decide, by decide, by decide, by rw [hrun]; simpa using hq⟩

theorem efa_domain_open_rollback_witness :
    env_pd_null.efa_get_efa_info = true ∧ env_pd_null.ofi_check_domain_attr = 0 ∧
    env_pd_null.calloc = some 1 ∧
    FailsAt cfg_ex env_pd_null info_ex 1 proc_ex .efa_cmd_alloc_pd ∧
    (efa_domain_open cfg_ex env_pd_null 0 info_ex proc_ex).map (fun r => r.domain_fid)
      = some none := by
  have hf : FailsAt cfg_ex env_pd_null info_ex 1 proc_ex .efa_cmd_alloc_pd :=
    ⟨by decide, by decide, by decide, by decide⟩
  obtain ⟨r, acq, hopen, -, -, -, -, hfid⟩ :=
    efa_domain_open_rollback cfg_ex env_pd_null 0 info_ex proc_ex 1 .efa_cmd_alloc_pd
      (by decide) (by decide) (by decide) hf
  exact ⟨by decide, by decide, by decide, hf, by rw [hopen]; simpa using hfid⟩

theorem efa_open_device_by_name_ret_zero (cfg : Config) (env : OpenEnv) (domain : efa_domain)
    (name : Option CStr) (p : Proc)
    (h : (efa_open_device_by_name cfg env domain name p).ret = 0)
    (herr : env.ctx_list = none → env.errno_ctx_list ≠ 0) :
    ∃ c, (efa_open_device_by_name cfg env domain name p).domain
      = { domain with ctx := some c } := by
  cases hl : env.ctx_list with
  | none =>
    cases name with
    | none => simp [efa_open_device_by_name, FI_EINVAL] at h
    | some name =>
      simp only [efa_open_device_by_name, hl] at h
      exact absurd (by omega) (herr hl)
  | some l =>
    obtain ⟨c, -, hc⟩ := efa_open_device_by_name_ctx cfg env domain name p l hl h
    exact ⟨c, hc⟩

/-- The invariant of a returned domain, under the assumption that a failing
`efa_device_get_context_list` or `efa_cmd_alloc_pd` leaves a non-zero `errno`:
when `efa_domain_open` returns 0, a domain has been published and its `ctx`,
`pd` and `info` are not NULL. -/
theorem efa_domain_open_ret_zero_of_errno (cfg : Config) (env : OpenEnv) (fabric : Nat)
    (info : fi_info) (p : Proc) (r : OpenResult)
    (hopen : efa_domain_open cfg env fabric info p = some r) (hret : r.ret = 0)
    (h1 : env.efa_cmd_alloc_pd = none → env.errno_alloc_pd ≠ 0)
    (h2 : env.ctx_list = none → env.errno_ctx_list ≠ 0) :
    ∃ d, r.domain_fid = some d ∧ d.ctx ≠ none ∧ d.pd ≠ none ∧ d.info ≠ none := by
  rcases efa_domain_open_cases cfg env fabric info p with
    ⟨ret1, evs, ho, -, hz⟩ | ⟨a, pd, evs, -, -, h3, ho, -, -⟩
  · rw [ho] at hopen
    cases hopen
    rcases hz hret with ⟨ha, hb⟩ | ⟨ha, hb⟩
    · exact absurd hb (h1 ha)
    · exact absurd hb (h2 ha)
  · rw [ho] at hopen
    obtain ⟨-, ⟨d, hd, -, hctx, hpd, hinf, -⟩, -⟩ :=
      efa_domain_open_mr_cache_spec cfg env info _ _ r hopen
    obtain ⟨c, hc⟩ := efa_open_device_by_name_ret_zero cfg env (domain_at_resolve a info)
      info.name (proc_at_resolve p a) h3 h2
    have hi := (efa_open_device_by_name_fields cfg env (domain_at_resolve a info)
      info.name (proc_at_resolve p a)).1
    refine ⟨d, hd, ?_, ?_, ?_⟩
    · rw [hctx, hc]; simp [efa_domain.with_pd]
    · rw [hpd]; simp [efa_domain.with_pd]
    · rw [hinf]
      simp only [efa_domain.with_pd, hi]
      simp [domain_at_resolve]

/-! ## A device resolution failure without rollback -/

/-- C2: the failure is injected at the device resolution:
`efa_device_get_context_list` returns NULL and leaves `errno` at 0, every other
call succeeds. `efa_open_device_by_name` returns `-errno = 0` with
`domain->ctx` still NULL, so `efa_domain_open` goes on as after a resolved
device. With the cache off it returns 0, its events are the acquisition calls
and the store through `domain_fid`, none of the cleanup calls
`[fi_freeinfo, ofi_domain_close, free]` is made, the domain object is not
freed, and the published domain has a NULL `ctx`. With the cache on and the
maximum size unset it dereferences the NULL `domain->ctx`. -/
theorem efa_domain_open_no_rollback_zero_errno :
    env_list_null.ctx_list = none ∧ env_list_null.errno_ctx_list = 0 ∧
    (efa_open_device_by_name cfg_ex env_list_null (domain_at_resolve 1 info_ex) info_ex.name
      proc_cache_off).ret = 0 ∧
    (efa_domain_open cfg_ex env_list_null 0 info_ex proc_cache_off).map
        (fun r => (r.ret, r.domain_fid.map (fun d => d.ctx)))
      = some (0, some none) ∧
    (efa_domain_open cfg_ex env_list_null 0 info_ex proc_cache_off).map
        (fun r => r.proc.trace)
      = some [.efa_get_efa_info true, .ofi_check_domain_attr 0, .calloc (some 1),
          .ofi_domain_init 1 0, .fi_dupinfo 1 true, .efa_device_get_context_list false,
          .efa_cmd_alloc_pd 1 true, .store_domain_fid 1] ∧
    (efa_domain_open cfg_ex env_list_null 0 info_ex proc_cache_off).map
        (fun r => r.proc.trace.filter is_undo)
      = some [] ∧
    (efa_domain_open cfg_ex env_list_null 0 info_ex proc_cache_off).map
        (fun r => r.proc.trace.count (.free 1))
      = some 0 ∧
    expected_cleanup 1 .efa_open_device_by_name
      = [.fi_freeinfo 1, .ofi_domain_close 1, .free 1] ∧
    efa_domain_open cfg_ex env_list_null 0 info_ex proc_ex = none := by
  refine ⟨by decide, by decide, by decide, by decide, by decide, by decide, by decide,
    by decide, by decide⟩

end Efa
